import Mathlib

/-
Verification of the pod-assembly engine, the entrypoint-wrapper protocol, the
termination-message codec, the reference matcher and the resource-floor
resolver of this repository, as a shallow embedding in Lean 4.

Source files embedded:
  - pkg/pod/pod.go                (pod assembly, limit ranges, affinity, labels)
  - the constants file defining the reserved directories (WorkspaceDir, ...)
  - the reference matcher (validateString and its regular expression)
  - the termination message length error type (MessageLengthError)

Functions of this repository whose bodies are not part of the visible slice
(the entrypoint wrapper runtime, the termination-message encoder, the
resource-request floor application, a few helpers) are modelled from the
specification; each such definition carries a doc comment starting with
"Modelled from the spec:".

Go machine values are modelled as follows: resource quantities as rationals,
Go maps as association lists whose read returns the zero value for a missing
key, nil-able results as Option, fallible functions as Except.
-/

namespace Tekton

/-! ## Resource quantities and resource lists -/

/-- A kubernetes resource quantity (resource.Quantity), modelled as an
arbitrary-precision rational number. -/
abbrev Qty := ℚ

/-- A kubernetes ResourceList (Go map from resource name to quantity),
modelled as an association list. -/
abbrev ResourceList := List (String × Qty)

/-- Reading a key from a ResourceList; reading a missing key yields the zero
quantity, like a Go map read. -/
def rlGet (rl : ResourceList) (k : String) : Qty :=
  match rl.find? (fun p => p.1 == k) with
  | some p => p.2
  | none => 0

/-- Writing a key into a ResourceList, like a Go map write: replace the value
when the key is present, append a fresh entry otherwise. -/
def rlInsert (rl : ResourceList) (k : String) (v : Qty) : ResourceList :=
  if rl.any (fun p => p.1 == k) then
    rl.map (fun p => if p.1 == k then (k, v) else p)
  else rl ++ [(k, v)]

/-- The keys of a ResourceList. -/
def rlKeys (rl : ResourceList) : List String := rl.map (fun p => p.1)

/-! ## Limit ranges: the namespace resource floor (getLimitRangeMinimum, from
pkg/pod/pod.go lines 379-407) -/

/-- One entry of a LimitRange spec (corev1.LimitRangeItem): its type and its
optional per-resource minimum (lrItem.Min, a nil-able Go map). -/
structure LimitRangeItem where
  limitType : String
  minimum : Option ResourceList
deriving DecidableEq

/-- A namespace LimitRange (only the list lr.Spec.Limits is consulted). -/
structure LimitRange where
  limits : List LimitRangeItem
deriving DecidableEq

/-- The limit type the floor resolver looks for (corev1.LimitTypeContainer). -/
def limitTypeContainer : String := "Container"

/-- Modelled from the spec: allZeroQty, the all-zero starting resource list
used by getLimitRangeMinimum (its body is not part of the visible slice; the
standard resource names carried by a container resource list are cpu, memory
and ephemeral-storage). -/
def allZeroQty : ResourceList :=
  [("cpu", 0), ("memory", 0), ("ephemeral-storage", 0)]

/-- Folding one declared minimum map into the accumulated floor: for each
key, keep the larger value (the Go loop body
`if v.Cmp(min[k]) > 0 then min[k] = v`). -/
def floorMergeMin (acc : ResourceList) (m : ResourceList) : ResourceList :=
  m.foldl (fun a kv => if rlGet a kv.1 < kv.2 then rlInsert a kv.1 kv.2 else a) acc

/-- getLimitRangeMinimum from pkg/pod/pod.go: scans every LimitRange of the
namespace and takes, per resource name, the maximum of all container-type
minimum declarations (the listing itself is an external call; its response is
the argument). -/
def getLimitRangeMinimum (limitRanges : List LimitRange) : ResourceList :=
  limitRanges.foldl
    (fun acc lr =>
      lr.limits.foldl
        (fun acc2 item =>
          if item.limitType == limitTypeContainer then
            match item.minimum with
            | some m => floorMergeMin acc2 m
            | none => acc2
          else acc2)
        acc)
    allZeroQty

/-- Modelled from the spec: the floor application of `Apply` in section 4.5
(the body of resolveResourceRequests is not part of the visible slice).
Applying the floor raises any request below the floor up to the floor;
requests already at or above the floor are untouched. -/
def applyFloor (req : ResourceList) (floor : ResourceList) : ResourceList :=
  floor.foldl (fun acc kv => if rlGet acc kv.1 < kv.2 then rlInsert acc kv.1 kv.2 else acc) req

/-! ## Containers and their pieces -/

/-- A container environment variable (corev1.EnvVar). -/
structure EnvVar where
  name : String
  value : String
deriving DecidableEq

/-- A container volume mount (corev1.VolumeMount; only the fields the
assembler reads or writes). -/
structure VolumeMount where
  name : String
  mountPath : String
deriving DecidableEq

/-- A pod volume (corev1.Volume); the volume source is modelled as a tag. -/
structure Volume where
  name : String
  source : String
deriving DecidableEq

/-- Container resource requirements (corev1.ResourceRequirements). -/
structure Resources where
  requests : ResourceList
  limits : ResourceList
deriving DecidableEq

/-- A container (corev1.Container; the fields the assembler touches). -/
structure Container where
  name : String
  image : String
  command : List String
  args : List String
  workingDir : String
  env : List EnvVar
  volumeMounts : List VolumeMount
  resources : Resources
deriving DecidableEq

/-- Modelled from the spec: resolveResourceRequests (its body is not part of
the visible slice; the call site at pkg/pod/pod.go line 185 applies it to the
step containers with the resolved namespace floor). Per section 4.5 it is the
`Apply` contract: raise each request below the floor up to the floor, leave
requests at or above the floor and all limits untouched. -/
def resolveResourceRequests (containers : List Container) (limitRangeMin : ResourceList) :
    List Container :=
  containers.map fun c =>
    { c with resources := { c.resources with requests := applyFloor c.resources.requests limitRangeMin } }

/-! ## Reserved directories (the constants source file) -/

/-- WorkspaceDir. -/
def workspaceDir : String := "/workspace"

/-- DefaultResultPath. -/
def defaultResultPath : String := "/tekton/results"

/-- HomeDir. -/
def homeDir : String := "/tekton/home"

/-- CredsDir. -/
def credsDir : String := "/tekton/creds"

/-- StepsDir. -/
def stepsDir : String := "/tekton/steps"

/-- ScriptDir. -/
def scriptDir : String := "/tekton/scripts"

/-- ArtifactsDir. -/
def artifactsDir : String := "/tekton/artifacts"

/-! ## Constants of pkg/pod/pod.go -/

/-- TektonHermeticEnvVar. -/
def tektonHermeticEnvVar : String := "TEKTON_HERMETIC"

/-- ExecutionModeAnnotation (the execution-mode annotation key). -/
def executionModeKey : String := "experimental.tekton.dev/execution-mode"

/-- ExecutionModeHermetic. -/
def executionModeHermetic : String := "hermetic"

/-- ReleaseAnnotation (the release annotation key). -/
def releaseAnnotKey : String := "pipeline.tekton.dev/release"

/-- The implicit volume mounts injected into all step containers
(pkg/pod/pod.go lines 57-70). -/
def implicitVolumeMounts : List VolumeMount :=
  [ { name := "tekton-internal-workspace", mountPath := workspaceDir },
    { name := "tekton-internal-home", mountPath := homeDir },
    { name := "tekton-internal-results", mountPath := defaultResultPath },
    { name := "tekton-internal-steps", mountPath := stepsDir } ]

/-- The implicit volumes (pkg/pod/pod.go lines 71-83). -/
def implicitVolumes : List Volume :=
  [ { name := "tekton-internal-workspace", source := "EmptyDir" },
    { name := "tekton-internal-home", source := "EmptyDir" },
    { name := "tekton-internal-results", source := "EmptyDir" },
    { name := "tekton-internal-steps", source := "EmptyDir" } ]

/-- Modelled from the spec: the script-staging volume appended when any step
or sidecar used a script body (scriptsVolume; its declaration is not part of
the visible slice). -/
def scriptsVolume : Volume := { name := "tekton-internal-scripts", source := "EmptyDir" }

/-- Modelled from the spec: the debug scripts volume (declaration not in the
visible slice). -/
def debugScriptsVolume : Volume := { name := "tekton-internal-debug-scripts", source := "EmptyDir" }

/-- Modelled from the spec: the debug info volume (declaration not in the
visible slice). -/
def debugInfoVolume : Volume := { name := "tekton-internal-debug-info", source := "EmptyDir" }

/-- Modelled from the spec: the wrapper-staging (tools) volume (declaration
not in the visible slice). -/
def toolsVolume : Volume := { name := "tekton-internal-tools", source := "EmptyDir" }

/-- Modelled from the spec: the downward-API volume used for start signalling
(declaration not in the visible slice). -/
def downwardVolume : Volume := { name := "tekton-internal-downward", source := "DownwardAPI" }

/-! ## String maps (Go map of string to string) -/

/-- A Go map from string to string, modelled as an association list. -/
abbrev StrMap := List (String × String)

/-- Reading a key; a missing key yields the empty string, like a Go map read. -/
def mapGet (m : StrMap) (k : String) : String :=
  match m.find? (fun p => p.1 == k) with
  | some p => p.2
  | none => ""

/-- Writing a key, like a Go map write. -/
def mapInsert (m : StrMap) (k v : String) : StrMap :=
  if m.any (fun p => p.1 == k) then
    m.map (fun p => if p.1 == k then (k, v) else p)
  else m ++ [(k, v)]

/-! ## Lexical path cleaning (filepath.Clean, used by the implicit mount
loop to normalize mount paths) -/

/-- One pass of the lexical cleaning of a slash-separated path: drop empty
and dot segments and resolve dot-dot segments. -/
def cleanSegs (rooted : Bool) : List String → List String → List String
  | acc, [] => acc.reverse
  | acc, s :: rest =>
    if s = "" ∨ s = "." then cleanSegs rooted acc rest
    else if s = ".." then
      match acc with
      | t :: acc2 =>
        if t = ".." then cleanSegs rooted (s :: t :: acc2) rest
        else cleanSegs rooted acc2 rest
      | [] => if rooted then cleanSegs rooted [] rest else cleanSegs rooted [s] rest
    else cleanSegs rooted (s :: acc) rest

/-- Split a character list on slashes (the segment decomposition of a
slash-separated path). -/
def splitSegAux : List Char → List Char → List (List Char)
  | acc, [] => [acc.reverse]
  | acc, c :: cs =>
    if c = '/' then acc.reverse :: splitSegAux [] cs
    else splitSegAux (c :: acc) cs

/-- filepath.Clean (unix rules): shortest lexically equivalent path. -/
def cleanPath (p : String) : String :=
  if p = "" then "." else
  let cs := p.data
  let rooted : Bool :=
    match cs with
    | '/' :: _ => true
    | _ => false
  let segs := cleanSegs rooted [] ((splitSegAux [] cs).map String.mk)
  let body := String.intercalate "/" segs
  if rooted then "/" ++ body
  else if body = "" then "." else body

/-! ## Affinity (pkg/pod/pod.go lines 262-271 and 360-377) -/

/-- A pod affinity term (corev1.PodAffinityTerm: exact label matches plus a
topology key). -/
structure PodAffinityTerm where
  matchLabels : List (String × String)
  topologyKey : String
deriving DecidableEq

/-- A scheduling affinity (corev1.Affinity). Node affinity and pod
anti-affinity are never built by this code, so they are opaque payloads. -/
structure Affinity where
  nodeAffinity : Option String
  podAffinity : Option (List PodAffinityTerm)
  podAntiAffinity : Option String
deriving DecidableEq

/-- Modelled from the spec: workspace.AnnotationAffinityAssistantName, the
co-location (affinity assistant) group annotation key (declaration not in the
visible slice). -/
def affinityAssistantKey : String := "pipeline.tekton.dev/affinity-assistant"

/-- Modelled from the spec: workspace.LabelInstance (declaration not in the
visible slice). -/
def labelInstanceKey : String := "app.kubernetes.io/instance"

/-- Modelled from the spec: workspace.LabelComponent (declaration not in the
visible slice). -/
def labelComponentKey : String := "app.kubernetes.io/component"

/-- Modelled from the spec: workspace.ComponentNameAffinityAssistant
(declaration not in the visible slice). -/
def componentNameAffinityAssistant : String := "affinity-assistant"

/-- The host-level topology key used by the affinity assistant term. -/
def hostTopologyKey : String := "kubernetes.io/hostname"

/-- nodeAffinityUsingAffinityAssistant from pkg/pod/pod.go: pod affinity
requiring co-scheduling with the affinity assistant pod of the given name,
with an exact label match at host-level topology. -/
def nodeAffinityUsingAffinityAssistant (affinityAssistantName : String) : Affinity :=
  { nodeAffinity := none
    podAffinity := some
      [ { matchLabels :=
            [ (labelInstanceKey, affinityAssistantName),
              (labelComponentKey, componentNameAffinityAssistant) ]
          topologyKey := hostTopologyKey } ]
    podAntiAffinity := none }

/-! ## Requests, templates, configuration -/

/-- The feature flags the assembler consults (config.FeatureFlags). -/
structure FeatureFlags where
  enableAPIFieldsAlpha : Bool
  disableHomeEnvOverwrite : Bool
  disableWorkingDirOverwrite : Bool
  runningInEnvWithInjectedSidecars : Bool
  disableCredsInit : Bool
deriving DecidableEq

/-- The options set on the Builder (pkg/pod/pod.go lines 86-92); the images
and clients are external collaborators, so only OverrideHomeEnv remains. -/
structure BuilderOpts where
  overrideHomeEnv : Bool
deriving DecidableEq

/-- A pod template (the pod-template overrides of the request; all fields
are copied through verbatim except affinity). -/
structure PodTemplate where
  volumes : List Volume
  affinity : Option Affinity
  tolerations : List String
  nodeSelector : StrMap
  securityContext : Option String
  runtimeClassName : Option String
  automountServiceAccountToken : Option Bool
  schedulerName : String
  hostNetwork : Bool
  dnsPolicy : Option String
  dnsConfig : Option String
  enableServiceLinks : Option Bool
  priorityClassName : Option String
  imagePullSecrets : List String
  hostAliases : List String
deriving DecidableEq

/-- The empty pod template used when the request declares none. -/
def emptyPodTemplate : PodTemplate :=
  { volumes := [], affinity := none, tolerations := [], nodeSelector := [],
    securityContext := none, runtimeClassName := none,
    automountServiceAccountToken := none, schedulerName := "",
    hostNetwork := false, dnsPolicy := none, dnsConfig := none,
    enableServiceLinks := none, priorityClassName := none,
    imagePullSecrets := [], hostAliases := [] }

/-- The TaskRun spec fields the assembler reads. -/
structure TaskRunSpec where
  serviceAccountName : String
  podTemplate : Option PodTemplate
  debug : Bool
deriving DecidableEq

/-- The TaskRun fields the assembler reads (and, through the annotation map,
writes). -/
structure TaskRun where
  name : String
  namespaceName : String
  labels : StrMap
  annots : StrMap
  spec : TaskRunSpec
deriving DecidableEq

/-- The TaskSpec fields the assembler reads directly (steps and the step
template are consumed by external collaborators; sidecars and volumes are
read here). -/
structure TaskSpec where
  sidecars : List Container
  volumes : List Volume
deriving DecidableEq

/-- The pod template of a request: the one on the TaskRun spec if any, the
empty template otherwise (pkg/pod/pod.go lines 247-252). -/
def podTemplateOf (tr : TaskRun) : PodTemplate :=
  tr.spec.podTemplate.getD emptyPodTemplate

/-! ## Collaborator responses

Build consults several external collaborators (credential initialization,
step-template merging, script conversion, entrypoint lookup, step rewriting,
namespace listing, release version). A Collab record carries one fixed
response per collaborator; a false ok-flag models the collaborator failing. -/

/-- The collaborator responses consumed by one Build call. -/
structure Collab where
  credsInitOk : Bool
  credEntrypointArgs : List String
  credVolumes : List Volume
  credVolumeMounts : List VolumeMount
  mergeOk : Bool
  mergedSteps : List Container
  scriptsInit : Option Container
  convertedSidecars : List Container
  workingDirInitC : Option Container
  resolveOk : Bool
  entrypointInit : Container
  orderOk : Bool
  orderedSteps : List Container
  limitRangesOk : Bool
  limitRanges : List LimitRange
  versionOk : Bool
  version : String
deriving DecidableEq

/-! ## The assembly phases of Build (pkg/pod/pod.go lines 97-341) -/

/-- The implicit environment variables: a HOME override when enabled
(pkg/pod/pod.go lines 105, 112-117). -/
def buildImplicitEnvVars (b : BuilderOpts) : List EnvVar :=
  if b.overrideHomeEnv then [ { name := "HOME", value := homeDir } ] else []

/-- Prepend the implicit environment variables to each step container, so
that user-declared variables of the same name come later and take precedence
(pkg/pod/pod.go lines 187-195). -/
def prependImplicitEnv (implicitEnvVars : List EnvVar) (steps : List Container) :
    List Container :=
  if implicitEnvVars.length > 0 then
    steps.map (fun s => { s with env := implicitEnvVars ++ s.env })
  else steps

/-- Whether hermetic execution was requested and the alpha API is enabled
(pkg/pod/pod.go line 198). -/
def hermeticRequested (flags : FeatureFlags) (tr : TaskRun) : Bool :=
  (mapGet tr.annots executionModeKey == executionModeHermetic) && flags.enableAPIFieldsAlpha

/-- Append the hermetic-mode variable at the end of each step environment so
it overrides even a same-named user variable (pkg/pod/pod.go lines 197-204). -/
def addHermeticEnv (hermetic : Bool) (steps : List Container) : List Container :=
  if hermetic then
    steps.map (fun s => { s with env := s.env ++ [ { name := tektonHermeticEnvVar, value := "1" } ] })
  else steps

/-- The step-private credentials-staging volume of step i. -/
def credsVolumeFor (i : Nat) : Volume :=
  { name := "tekton-creds-init-home-" ++ toString i, source := "EmptyDir" }

/-- The step-private credentials-staging volume mount of step i. -/
def credsMountFor (i : Nat) : VolumeMount :=
  { name := "tekton-creds-init-home-" ++ toString i, mountPath := credsDir }

/-- Modelled from the spec: getCredsInitVolume (its body is not part of the
visible slice). Per section 4.1 step 9 and the call-site comment, each step
receives one step-private credentials-staging volume mounted at the creds
directory, unless the legacy credential helper is disabled by feature flag. -/
def getCredsInitVolume (flags : FeatureFlags) (i : Nat) : Option (Volume × VolumeMount) :=
  if flags.disableCredsInit then none
  else some (credsVolumeFor i, credsMountFor i)

/-- Map with the element index, starting at a given index. -/
def mapIdxAux (f : Nat → α → β) : Nat → List α → List β
  | _, [] => []
  | n, a :: as => f n a :: mapIdxAux f (n + 1) as

/-- The body of the implicit-volume-mount loop for one step (pkg/pod/pod.go
lines 208-232): first append the step-private credentials volume mount, then
add every implicit mount whose cleaned path is not already claimed by a
mount of the step. Returns the volumes to append and the updated step. -/
def addImplicitMountsStep (flags : FeatureFlags) (vmounts : List VolumeMount)
    (i : Nat) (s : Container) : List Volume × Container :=
  let credPart : List Volume × List VolumeMount :=
    match getCredsInitVolume flags i with
    | some (v, vm) => ([v], s.volumeMounts ++ [vm])
    | none => ([], s.volumeMounts)
  let mounts1 := credPart.2
  let requested := mounts1.map (fun vm => cleanPath vm.mountPath)
  let toAdd := vmounts.filter (fun imp => !(requested.contains (cleanPath imp.mountPath)))
  (credPart.1, { s with volumeMounts := mounts1 ++ toAdd })

/-- The implicit-volume-mount loop over all step containers (pkg/pod/pod.go
lines 206-232). Returns the per-step credential volumes to append and the
updated steps. Sidecar containers are not touched by this loop. -/
def addImplicitMounts (flags : FeatureFlags) (vmounts : List VolumeMount)
    (steps : List Container) : List Volume × List Container :=
  let results := mapIdxAux (fun i s => addImplicitMountsStep flags vmounts i s) 0 steps
  ((results.map Prod.fst).join, results.map Prod.snd)

/-- Modelled from the spec: StepName (declaration not in the visible slice;
the loop comment at pkg/pod/pod.go lines 234-236 fixes its behavior: add the
step- prefix, or step-unnamed-# when the step has no name). -/
def stepNameFor (name : String) (i : Nat) : String :=
  if name = "" then "step-unnamed-" ++ toString i else "step-" ++ name

/-- Modelled from the spec: names.SimpleNameGenerator.RestrictLength
(declaration not in the visible slice): restrict a generated name to the
kubernetes name-length bound. -/
def restrictLength (s : String) : String :=
  if s.length > 63 then s.take 63 else s

/-- Modelled from the spec: RestrictLengthWithRandomSuffix (declaration not
in the visible slice): append a freshly drawn random suffix, then restrict
the length. The random draw is passed in explicitly. -/
def restrictLengthWithSuffix (s suffix : String) : String :=
  restrictLength (s ++ "-" ++ suffix)

/-- Modelled from the spec: sidecarPrefix (declaration not in the visible
slice): the prefix distinguishing sidecar container names from step names. -/
def sidecarPre : String := "sidecar-"

/-- The workingDir-defaulting and naming loop (pkg/pod/pod.go lines 234-245):
default the working directory to the workspace root unless disabled or
already set, and give each step container its stable generated name. -/
def defaultDirAndName (shouldOverride : Bool) (steps : List Container) : List Container :=
  mapIdxAux
    (fun i s =>
      let s1 := if s.workingDir = "" ∧ shouldOverride then { s with workingDir := workspaceDir } else s
      { s1 with name := restrictLength (stepNameFor s.name i) })
    0 steps

/-- Modelled from the spec: pipeline.TaskRunLabelKey (declaration not in the
visible slice), the identifying label forced onto the pod. -/
def taskRunLabelKey : String := "tekton.dev/taskRun"

/-- makeLabels from pkg/pod/pod.go lines 343-358: copy every TaskRun label,
then force the identifying label last so it cannot be shadowed. -/
def makeLabels (tr : TaskRun) : StrMap :=
  mapInsert tr.labels taskRunLabelKey tr.name

/-- Modelled from the spec: readyAnnotation key (declaration not in the
visible slice). -/
def readyAnnotKey : String := "tekton.dev/ready"

/-- Modelled from the spec: readyAnnotationValue (declaration not in the
visible slice). -/
def readyAnnotValue : String := "READY"

/-- shouldAddReadyAnnotationOnPodCreate from pkg/pod/pod.go lines 431-444:
the readiness marker may be pre-set only when the task has no sidecars and
the cluster does not auto-inject sidecars. -/
def shouldAddReadyAnnot (flags : FeatureFlags) (sidecars : List Container) : Bool :=
  if sidecars.length > 0 then false
  else !flags.runningInEnvWithInjectedSidecars

/-- Modelled from the spec: ValidateVolumes (its body is not part of the
visible slice). Per section 4.1 step 11 the final volume set is validated
for duplicate names. -/
def volumeNamesUnique : List Volume → Bool
  | [] => true
  | v :: vs => !(vs.any (fun w => w.name == v.name)) && volumeNamesUnique vs

/-! ## Build itself -/

/-- The step containers after the resource floor has been applied
(pkg/pod/pod.go lines 179-185). -/
def stepsAfterResources (collab : Collab) : List Container :=
  resolveResourceRequests collab.orderedSteps (getLimitRangeMinimum collab.limitRanges)

/-- The step containers after both environment phases (pkg/pod/pod.go lines
187-204). -/
def stepsAfterEnv (flags : FeatureFlags) (b : BuilderOpts) (collab : Collab)
    (tr : TaskRun) : List Container :=
  addHermeticEnv (hermeticRequested flags tr)
    (prependImplicitEnv (buildImplicitEnvVars b) (stepsAfterResources collab))

/-- The implicit mount list handed to the mount loop: the implicit volume
mounts followed by the credential mounts (pkg/pod/pod.go lines 110, 127). -/
def allImplicitMounts (collab : Collab) : List VolumeMount :=
  implicitVolumeMounts ++ collab.credVolumeMounts

/-- The result of the implicit-volume-mount loop inside Build. -/
def mountsPhase (flags : FeatureFlags) (b : BuilderOpts) (collab : Collab)
    (tr : TaskRun) : List Volume × List Container :=
  addImplicitMounts flags (allImplicitMounts collab) (stepsAfterEnv flags b collab tr)

/-- The final step containers of the pod. -/
def finalStepContainers (flags : FeatureFlags) (b : BuilderOpts) (collab : Collab)
    (tr : TaskRun) : List Container :=
  defaultDirAndName (!flags.disableWorkingDirOverwrite) (mountsPhase flags b collab tr).2

/-- The full volume list of the pod, in the order Build appends volumes:
implicit volumes, credential volumes, the script volume, the debug volumes,
the tools and downward volumes, the per-step credential volumes, the task
volumes and the pod-template volumes. -/
def allVolumes (flags : FeatureFlags) (b : BuilderOpts) (collab : Collab)
    (tr : TaskRun) (ts : TaskSpec) : List Volume :=
  let v1 := implicitVolumes ++ collab.credVolumes
  let v2 := if collab.scriptsInit.isSome then v1 ++ [scriptsVolume] else v1
  let v3 := if flags.enableAPIFieldsAlpha && tr.spec.debug then
      v2 ++ [debugScriptsVolume, debugInfoVolume] else v2
  let v4 := v3 ++ [toolsVolume, downwardVolume]
  let v5 := v4 ++ (mountsPhase flags b collab tr).1
  v5 ++ ts.volumes ++ (podTemplateOf tr).volumes

/-- The init containers: the entrypoint stager placed first, then the script
stager and the working-directory initializer when present (pkg/pod/pod.go
lines 143-146, 152-155, 174-176). -/
def buildInitContainers (collab : Collab) : List Container :=
  collab.entrypointInit ::
    ((match collab.scriptsInit with
      | some si => [si]
      | none => []) ++
     (match collab.workingDirInitC with
      | some wd => [wd]
      | none => []))

/-- Pod metadata (the fields Build fills in). -/
structure PodObjectMeta where
  name : String
  namespaceName : String
  annots : StrMap
  labels : StrMap
  ownerTaskRunName : String
deriving DecidableEq

/-- The pod spec fields Build fills in. -/
structure PodSpecL where
  restartPolicy : String
  initContainers : List Container
  containers : List Container
  serviceAccountName : String
  volumes : List Volume
  nodeSelector : StrMap
  tolerations : List String
  affinity : Option Affinity
  securityContext : Option String
  runtimeClassName : Option String
  automountServiceAccountToken : Option Bool
  schedulerName : String
  hostNetwork : Bool
  dnsPolicy : String
  dnsConfig : Option String
  enableServiceLinks : Option Bool
  priorityClassName : String
  imagePullSecrets : List String
  hostAliases : List String
deriving DecidableEq

/-- The assembled unit descriptor. -/
structure Pod where
  meta : PodObjectMeta
  spec : PodSpecL
deriving DecidableEq

/-- The observable outcome of one Build call: the pod, plus the TaskRun
annotation map after the call. Build aliases the pod annotations to the
TaskRun annotation map (`podAnnotations := taskRun.Annotations` at
pkg/pod/pod.go line 291), so the writes at lines 296 and 299 are visible
through the TaskRun argument. -/
structure BuildOut where
  pod : Pod
  taskRunAnnotsAfter : StrMap
deriving DecidableEq

/-- Equality of fallible results is decidable when both components are. -/
instance {e a : Type _} [DecidableEq e] [DecidableEq a] : DecidableEq (Except e a) :=
  fun x y =>
    match x, y with
    | .error e1, .error e2 =>
      if h : e1 = e2 then isTrue (congrArg Except.error h)
      else isFalse (fun hc => h (Except.error.inj hc))
    | .ok a1, .ok a2 =>
      if h : a1 = a2 then isTrue (congrArg Except.ok h)
      else isFalse (fun hc => h (Except.ok.inj hc))
    | .error _, .ok _ => isFalse (fun hc => Except.noConfusion hc)
    | .ok _, .error _ => isFalse (fun hc => Except.noConfusion hc)

/-- The fatal assembly errors. -/
inductive BuildErr
  | credsInitErr
  | mergeErr
  | entrypointResolveErr
  | orderErr
  | limitRangeErr
  | volumesErr
  | versionErr
deriving DecidableEq

/-- The pure assembly of the unit descriptor, given every collaborator
response (pkg/pod/pod.go lines 97-341 on the success path). -/
def assembleOut (flags : FeatureFlags) (b : BuilderOpts) (collab : Collab)
    (suffix : String) (tr : TaskRun) (ts : TaskSpec) : BuildOut :=
  let podTemplate := podTemplateOf tr
  let aaName := mapGet tr.annots affinityAssistantKey
  let affinity : Option Affinity :=
    if aaName ≠ "" then some (nodeAffinityUsingAffinityAssistant aaName)
    else podTemplate.affinity
  let sidecars := collab.convertedSidecars.map
    (fun sc => { sc with name := restrictLength (sidecarPre ++ sc.name) })
  let mergedPodContainers := finalStepContainers flags b collab tr ++ sidecars
  let annots1 := mapInsert tr.annots releaseAnnotKey collab.version
  let annots2 :=
    if shouldAddReadyAnnot flags ts.sidecars then
      mapInsert annots1 readyAnnotKey readyAnnotValue
    else annots1
  { pod :=
      { meta :=
          { name := restrictLengthWithSuffix (tr.name ++ "-pod") suffix
            namespaceName := tr.namespaceName
            annots := annots2
            labels := makeLabels tr
            ownerTaskRunName := tr.name }
        spec :=
          { restartPolicy := "Never"
            initContainers := buildInitContainers collab
            containers := mergedPodContainers
            serviceAccountName := tr.spec.serviceAccountName
            volumes := allVolumes flags b collab tr ts
            nodeSelector := podTemplate.nodeSelector
            tolerations := podTemplate.tolerations
            affinity := affinity
            securityContext := podTemplate.securityContext
            runtimeClassName := podTemplate.runtimeClassName
            automountServiceAccountToken := podTemplate.automountServiceAccountToken
            schedulerName := podTemplate.schedulerName
            hostNetwork := podTemplate.hostNetwork
            dnsPolicy := podTemplate.dnsPolicy.getD ""
            dnsConfig := podTemplate.dnsConfig
            enableServiceLinks := podTemplate.enableServiceLinks
            priorityClassName := podTemplate.priorityClassName.getD ""
            imagePullSecrets := podTemplate.imagePullSecrets
            hostAliases := podTemplate.hostAliases } }
    taskRunAnnotsAfter := annots2 }

/-- Build (pkg/pod/pod.go lines 97-341). The fallible collaborator calls and
the volume validation abort assembly in source order; on success the pure
assembly above is returned. The fresh random suffix drawn for the pod name
is an explicit argument. -/
def build (flags : FeatureFlags) (b : BuilderOpts) (collab : Collab)
    (suffix : String) (tr : TaskRun) (ts : TaskSpec) : Except BuildErr BuildOut :=
  if !collab.credsInitOk then .error .credsInitErr
  else if !collab.mergeOk then .error .mergeErr
  else if !collab.resolveOk then .error .entrypointResolveErr
  else if !collab.orderOk then .error .orderErr
  else if !collab.limitRangesOk then .error .limitRangeErr
  else if !(volumeNamesUnique (allVolumes flags b collab tr ts)) then .error .volumesErr
  else if !collab.versionOk then .error .versionErr
  else .ok (assembleOut flags b collab suffix tr ts)

/-! ## The entrypoint wrapper (modelled from the spec, section 4.2) -/

/-- The per-step error policy. -/
inductive OnErrorPolicy
  | stopAndFail
  | continueStep
deriving DecidableEq

/-- The termination reasons of a step outcome. -/
inductive TerminationReason
  | completed
  | errored
  | erroredIgnored
  | timedOut
  | externallyTerminated
deriving DecidableEq

/-- One captured result (name and textual value). -/
structure StepResultCapture where
  name : String
  value : String
deriving DecidableEq

/-- A step outcome: exit code, reason, free text, captured results. -/
structure StepOutcome where
  exitCode : Nat
  reason : TerminationReason
  message : String
  results : List StepResultCapture
deriving DecidableEq

/-- The observable inputs of one wrapper execution. -/
structure WrapperRun where
  policy : OnErrorPolicy
  realExitCode : Nat
  timedOut : Bool
  signaled : Bool
  capturedResults : List StepResultCapture
deriving DecidableEq

/-- The observable effects of one wrapper execution: the outcome it emits,
whether it wrote the completion marker, and the exit code the platform sees. -/
structure WrapperOut where
  outcome : StepOutcome
  markerWritten : Bool
  platformExitCode : Nat
deriving DecidableEq

/-- Modelled from the spec: the entrypoint wrapper runtime behavior of
section 4.2 (the wrapper binary is not part of the visible slice). Reason
selection: a signal from outside gives externallyTerminated with no marker;
an elapsed timeout is handled like a StopAndFail non-zero exit unless the
policy is Continue; exit code zero completes; a non-zero exit errors under
StopAndFail (real code propagated, no marker) and is ignored under Continue
(marker written, platform sees zero, real code recorded in the outcome). -/
def runWrapper (r : WrapperRun) : WrapperOut :=
  if r.signaled then
    { outcome := { exitCode := r.realExitCode, reason := .externallyTerminated,
                   message := "", results := r.capturedResults }
      markerWritten := false
      platformExitCode := if r.realExitCode = 0 then 1 else r.realExitCode }
  else if r.timedOut then
    match r.policy with
    | .continueStep =>
      { outcome := { exitCode := r.realExitCode, reason := .timedOut,
                     message := "", results := r.capturedResults }
        markerWritten := true
        platformExitCode := 0 }
    | .stopAndFail =>
      { outcome := { exitCode := r.realExitCode, reason := .timedOut,
                     message := "", results := r.capturedResults }
        markerWritten := false
        platformExitCode := if r.realExitCode = 0 then 1 else r.realExitCode }
  else if r.realExitCode = 0 then
    { outcome := { exitCode := 0, reason := .completed,
                   message := "", results := r.capturedResults }
      markerWritten := true
      platformExitCode := 0 }
  else
    match r.policy with
    | .stopAndFail =>
      { outcome := { exitCode := r.realExitCode, reason := .errored,
                     message := "", results := r.capturedResults }
        markerWritten := false
        platformExitCode := r.realExitCode }
    | .continueStep =>
      { outcome := { exitCode := r.realExitCode, reason := .erroredIgnored,
                     message := "", results := r.capturedResults }
        markerWritten := true
        platformExitCode := 0 }

/-- The successor wait condition is satisfiable exactly when the predecessor
wrote its completion marker (the marker-file protocol of section 4.2). -/
def successorWaitSatisfiable (w : WrapperOut) : Bool := w.markerWritten

/-! ## The termination-message codec (the length error type is source; the
encoder is modelled from the spec, section 4.3) -/

/-- MessageLengthError from the termination message source file: the length
of the termination message is beyond 4096, the maximum read back by the
platform. A distinct error type, not an execution failure. -/
structure MessageLengthError where
  text : String
deriving DecidableEq

/-- errTooLong from the termination message source file. -/
def errTooLong : MessageLengthError :=
  { text := "Termination message is above max allowed size 4096, caused by large task result." }

/-- The message text of a MessageLengthError (its Error method). -/
def MessageLengthError.errorText (e : MessageLengthError) : String := e.text

/-- The textual form of a termination reason used in the encoded payload. -/
def reasonText : TerminationReason → String
  | .completed => "Completed"
  | .errored => "Errored"
  | .erroredIgnored => "ErroredIgnored"
  | .timedOut => "TimedOut"
  | .externallyTerminated => "ExternallyTerminated"

/-- Modelled from the spec: the deterministic encoded payload of a step
outcome (section 4.3): exit code, reason, free-text message and all captured
results, name and value, in declared order. -/
def encodePayload (o : StepOutcome) : String :=
  toString o.exitCode ++ ";" ++ reasonText o.reason ++ ";" ++ o.message ++ ";" ++
    String.join (o.results.map (fun r => r.name ++ "=" ++ r.value ++ ";"))

/-- The hard ceiling on the encoded termination payload. -/
def maxTerminationMessageLength : Nat := 4096

/-- Modelled from the spec: Encode of section 4.3. Encoding fails with the
length error when the payload would exceed the ceiling; it never truncates. -/
def encodeOutcome (o : StepOutcome) : Except MessageLengthError String :=
  let payload := encodePayload o
  if payload.length > maxTerminationMessageLength then .error errTooLong
  else .ok payload

/-- The failure taxonomy of section 7: encoding errors are a kind of their
own, distinct from step-execution failures and cancellation. -/
inductive FailureCause
  | encoding (e : MessageLengthError)
  | stepExecution (exitCode : Nat)
  | cancellation
deriving DecidableEq

/-! ## The reference matcher (the types source file: validateString and the
variable substitution regular expression) -/

/-- A character of the body character class of the reference grammar,
the class of underscore, ASCII letters, digits, dot and dash. -/
def isRefChar (c : Char) : Bool :=
  c.isAlpha || c.isDigit || c == '_' || c == '.' || c == '-'

/-- An ASCII digit. -/
def isDigitChar (c : Char) : Bool := c.isDigit

/-- Parse an optional index part at the head: a bracketed literal
non-negative integer or a bracketed star. Returns the consumed characters
and the remainder. -/
def bracketPart : List Char → Option (List Char × List Char)
  | '[' :: rest =>
    match rest with
    | '*' :: ']' :: rest2 => some (['[', '*', ']'], rest2)
    | _ =>
      let ds := rest.takeWhile isDigitChar
      let rest2 := rest.dropWhile isDigitChar
      if ds.isEmpty then none
      else
        match rest2 with
        | ']' :: rest3 => some ('[' :: (ds ++ [']']), rest3)
        | _ => none
  | _ => none

/-- Try to match one reference expression at the head of the character list,
following the variable substitution regular expression: a literal dollar and
opening parenthesis, one or more body-class characters, an optional bracket
index, and a closing parenthesis. Returns the matched text and the
remainder. -/
def refMatchHere : List Char → Option (List Char × List Char)
  | '$' :: '(' :: rest =>
    let body := rest.takeWhile isRefChar
    let rest1 := rest.dropWhile isRefChar
    if body.isEmpty then none
    else
      match bracketPart rest1 with
      | some (br, rest2) =>
        match rest2 with
        | ')' :: rest3 => some ('$' :: '(' :: (body ++ br ++ [')']), rest3)
        | _ =>
          match rest1 with
          | ')' :: rest3 => some ('$' :: '(' :: (body ++ [')']), rest3)
          | _ => none
      | none =>
        match rest1 with
        | ')' :: rest3 => some ('$' :: '(' :: (body ++ [')']), rest3)
        | _ => none
  | _ => none

/-- Scan for all non-overlapping leftmost matches, fuelled by the input
length (each iteration consumes at least one character, so the initial fuel
below is always sufficient). -/
def findAllRefsFuel : Nat → List Char → List (List Char)
  | 0, _ => []
  | _ + 1, [] => []
  | n + 1, c :: cs =>
    match refMatchHere (c :: cs) with
    | some (m, rest) => m :: findAllRefsFuel n rest
    | none => findAllRefsFuel n cs

/-- FindAllString of the variable substitution regular expression: every
non-overlapping leftmost match, in order. An empty result models the nil
slice Go returns when there is no match. -/
def findAllRefs (l : List Char) : List (List Char) :=
  findAllRefsFuel l.length l

/-- TrimPrefix on character lists. -/
def dropPre (pre l : List Char) : List Char :=
  if pre.isPrefixOf l then l.drop pre.length else l

/-- TrimSuffix on character lists. -/
def dropSuf (suf l : List Char) : List Char :=
  if suf.isSuffixOf l then l.take (l.length - suf.length) else l

/-- stripVarSubExpression from the types source file: strip the leading
dollar-parenthesis and the trailing parenthesis. -/
def stripVarSubExpression (expression : String) : String :=
  String.mk (dropSuf [')'] (dropPre ['$', '('] expression.data))

/-- validateString from the types source file: find all matches of the
variable substitution expression; when there are none, return the nil slice
(modelled as none); otherwise return the stripped bodies. -/
def validateString (value : String) : Option (List String) :=
  let expressions := findAllRefs value.data
  if expressions.isEmpty then none
  else some (expressions.map (fun e => stripVarSubExpression (String.mk e)))

/-- Whether some position of the character list starts a reference match. -/
def containsRefAux : List Char → Bool
  | [] => false
  | c :: cs => (refMatchHere (c :: cs)).isSome || containsRefAux cs

/-- Whether the string contains a reference expression anywhere. -/
def containsRef (s : String) : Bool := containsRefAux s.data

/-- The environment value the platform resolves for a name: with duplicate
names in a container environment list, the last entry wins. -/
def lastEnvValue (env : List EnvVar) (n : String) : Option String :=
  env.foldl (fun acc e => if e.name == n then some e.value else acc) none

/-- The step-container environments of a successful build, for stating
concrete counterexamples. -/
def stepEnvsOf (r : Except BuildErr BuildOut) : Option (List (List EnvVar)) :=
  match r with
  | .ok o => some (o.pod.spec.containers.map (fun c => c.env))
  | .error _ => none

/-- The step-container volume mounts of a successful build, for stating
concrete counterexamples. -/
def stepMountsOf (r : Except BuildErr BuildOut) : Option (List (List VolumeMount)) :=
  match r with
  | .ok o => some (o.pod.spec.containers.map (fun c => c.volumeMounts))
  | .error _ => none

/-- The mount list of one step at shadow-check time: its declared mounts
followed by the step-private credentials mount when the legacy helper is
enabled (the state of s.VolumeMounts at pkg/pod/pod.go line 221). -/
def mountsWithCreds (flags : FeatureFlags) (i : Nat) (ms : List VolumeMount) :
    List VolumeMount :=
  match getCredsInitVolume flags i with
  | some (_, vm) => ms ++ [vm]
  | none => ms

/-- The transformation Build applies to the step container of index i, as
one composed function: the resource floor, the implicit then hermetic
environment phases, the implicit mount loop body, and the working-directory
and name defaulting. finalStepContainers applies exactly this per index. -/
def stepTransform (flags : FeatureFlags) (b : BuilderOpts) (collab : Collab)
    (tr : TaskRun) (i : Nat) (c : Container) : Container :=
  let floor := getLimitRangeMinimum collab.limitRanges
  let c1 : Container :=
    { c with resources := { c.resources with requests := applyFloor c.resources.requests floor } }
  let ivs := buildImplicitEnvVars b
  let c2 : Container := if ivs.length > 0 then { c1 with env := ivs ++ c1.env } else c1
  let c3 : Container :=
    if hermeticRequested flags tr then
      { c2 with env := c2.env ++ [ { name := tektonHermeticEnvVar, value := "1" } ] }
    else c2
  let c4 : Container := (addImplicitMountsStep flags (allImplicitMounts collab) i c3).2
  let c5 : Container :=
    if c4.workingDir = "" ∧ (!flags.disableWorkingDirOverwrite : Bool) then
      { c4 with workingDir := workspaceDir }
    else c4
  { c5 with name := restrictLength (stepNameFor c4.name i) }

/-! ## Concrete scenarios used by witnesses and counterexamples -/

/-- A default feature-flag configuration (stable API, overrides on, creds
helper on, no injected sidecars). -/
def demoFlags : FeatureFlags :=
  { enableAPIFieldsAlpha := false, disableHomeEnvOverwrite := false,
    disableWorkingDirOverwrite := false, runningInEnvWithInjectedSidecars := false,
    disableCredsInit := false }

/-- The demo flags with the alpha API field gate enabled. -/
def demoFlagsAlpha : FeatureFlags :=
  { demoFlags with enableAPIFieldsAlpha := true }

/-- The demo flags with the legacy credential helper disabled. -/
def demoFlagsNoCreds : FeatureFlags :=
  { demoFlags with disableCredsInit := true }

/-- Builder options with the HOME override enabled. -/
def demoB : BuilderOpts := { overrideHomeEnv := true }

/-- The entrypoint-stager init container response. -/
def demoEntry : Container :=
  { name := "place-tools", image := "entry-img", command := [], args := [],
    workingDir := "", env := [], volumeMounts := [],
    resources := { requests := [], limits := [] } }

/-- A step container as it leaves the ordering rewrite: no name, a
user-declared HOME variable, a 50-milli cpu request, a one-milli cpu limit. -/
def demoStep : Container :=
  { name := "", image := "alpine", command := ["sh"], args := [], workingDir := "",
    env := [ { name := "HOME", value := "/my-home" } ], volumeMounts := [],
    resources := { requests := [("cpu", 50)], limits := [("cpu", 1000)] } }

/-- A sidecar container with no volume mounts. -/
def demoSidecar : Container :=
  { name := "watch", image := "alpine", command := ["sh"], args := [], workingDir := "",
    env := [], volumeMounts := [], resources := { requests := [], limits := [] } }

/-- Collaborator responses: one ordered step, no sidecars, a namespace floor
of 250 milli cpu. -/
def demoCollab : Collab :=
  { credsInitOk := true, credEntrypointArgs := [], credVolumes := [], credVolumeMounts := [],
    mergeOk := true, mergedSteps := [], scriptsInit := none, convertedSidecars := [],
    workingDirInitC := none, resolveOk := true, entrypointInit := demoEntry,
    orderOk := true, orderedSteps := [demoStep], limitRangesOk := true,
    limitRanges := [ { limits := [ { limitType := "Container", minimum := some [("cpu", 250)] } ] } ],
    versionOk := true, version := "devel" }

/-- The demo collaborator responses with one sidecar. -/
def demoCollabSidecar : Collab :=
  { demoCollab with convertedSidecars := [demoSidecar] }

/-- A request with no labels and no annotations. -/
def demoRun : TaskRun :=
  { name := "tr", namespaceName := "ns", labels := [], annots := [],
    spec := { serviceAccountName := "default", podTemplate := none, debug := false } }

/-- A request carrying the hermetic execution-mode annotation. -/
def demoRunHermetic : TaskRun :=
  { demoRun with annots := [(executionModeKey, "hermetic")] }

/-- A request carrying a co-location (affinity assistant) group annotation
and a user-declared affinity in its pod template. -/
def demoRunAffinity : TaskRun :=
  { demoRun with
    annots := [(affinityAssistantKey, "affinity-assistant-x")]
    spec := { serviceAccountName := "default",
              podTemplate := some { emptyPodTemplate with
                affinity := some { nodeAffinity := some "user-node-affinity",
                                   podAffinity := none, podAntiAffinity := none } },
              debug := false } }

/-- An empty task spec. -/
def demoSpec : TaskSpec := { sidecars := [], volumes := [] }

/-- The demo task spec with one sidecar declared. -/
def demoSpecSidecar : TaskSpec := { sidecars := [demoSidecar], volumes := [] }

/-- The successful build output of the basic demo scenario. -/
def demoOut : BuildOut :=
  (build demoFlags demoB demoCollab "sfx" demoRun demoSpec).toOption.get (by decide)

/-- The successful build output of the hermetic demo scenario. -/
def demoOutHermetic : BuildOut :=
  (build demoFlagsAlpha demoB demoCollab "sfx" demoRunHermetic demoSpec).toOption.get (by decide)

/-- The successful build output of the affinity demo scenario. -/
def demoOutAffinity : BuildOut :=
  (build demoFlags demoB demoCollab "sfx" demoRunAffinity demoSpec).toOption.get (by decide)

/-- The successful build output of the sidecar demo scenario with the
legacy credential helper disabled. -/
def demoOutSidecar : BuildOut :=
  (build demoFlagsNoCreds demoB demoCollabSidecar "sfx" demoRun demoSpecSidecar).toOption.get
    (by decide)

/-- The demo build output drawn with one random suffix. -/
def demoOutA : BuildOut :=
  (build demoFlags demoB demoCollab "aaaaa" demoRun demoSpec).toOption.get (by decide)

/-- The demo build output drawn with another random suffix. -/
def demoOutB : BuildOut :=
  (build demoFlags demoB demoCollab "bbbbb" demoRun demoSpec).toOption.get (by decide)

/-- The two conflicting namespace minimum declarations of the floor example:
100 milli cpu and 250 milli cpu (quantities carried in milli-units). -/
def exampleLimitRanges : List LimitRange :=
  [ { limits := [ { limitType := "Container", minimum := some [("cpu", 100)] } ] },
    { limits := [ { limitType := "Container", minimum := some [("cpu", 250)] } ] } ]

/-- A step container requesting 50 milli cpu. -/
def exampleStepLow : Container :=
  { name := "low", image := "img", command := [], args := [], workingDir := "",
    env := [], volumeMounts := [], resources := { requests := [("cpu", 50)], limits := [] } }

/-- A step container requesting 300 milli cpu. -/
def exampleStepHigh : Container :=
  { name := "high", image := "img", command := [], args := [], workingDir := "",
    env := [], volumeMounts := [], resources := { requests := [("cpu", 300)], limits := [] } }

/-- A wrapper execution with policy Continue whose real command exits 11
after writing one result (the failing-step fixture of the test data). -/
def exampleWrapperRun : WrapperRun :=
  { policy := .continueStep, realExitCode := 11, timedOut := false, signaled := false,
    capturedResults := [ { name := "task1-result", value := "123" } ] }

/-- A step outcome whose single captured result alone exceeds the 4096-byte
payload ceiling. -/
def exampleBigOutcome : StepOutcome :=
  { exitCode := 11, reason := .erroredIgnored, message := "",
    results := [ { name := "r", value := String.mk (List.replicate 4200 'a') } ] }

end Tekton

namespace Tekton

/-! # Theorems -/

/-! ## Association list lemmas -/

theorem rlGet_nil (k : String) : rlGet [] k = 0 := rfl

theorem rlGet_cons (p : String × Qty) (rl : ResourceList) (k : String) :
    rlGet (p :: rl) k = if p.1 == k then p.2 else rlGet rl k := by
  simp only [rlGet, List.find?]
  cases h : (p.1 == k) <;> simp [h]

theorem rlGet_map_replace (rl : ResourceList) (k k2 : String) (v : Qty) (h : k ≠ k2) :
    rlGet (rl.map (fun p => if p.1 == k then (k, v) else p)) k2 = rlGet rl k2 := by
  induction rl with
  | nil => rfl
  | cons p rl ih =>
    simp only [List.map_cons]
    rw [rlGet_cons, rlGet_cons]
    by_cases hp : p.1 = k
    · simp only [show (p.1 == k) = true by simp [hp], if_true]
      have h1 : (k == k2) = false := by simp [h]
      have h2 : (p.1 == k2) = false := by simp [hp ▸ h]
      simp only [h1, h2, Bool.false_eq_true, if_false, ih]
    · simp only [show (p.1 == k) = false by simp [hp], Bool.false_eq_true, if_false]
      by_cases h2 : p.1 = k2
      · simp [show (p.1 == k2) = true by simp [h2]]
      · simp only [show (p.1 == k2) = false by simp [h2], Bool.false_eq_true, if_false, ih]

theorem rlGet_map_replace_self (rl : ResourceList) (k : String) (v : Qty)
    (h : rl.any (fun p => p.1 == k) = true) :
    rlGet (rl.map (fun p => if p.1 == k then (k, v) else p)) k = v := by
  induction rl with
  | nil => simp at h
  | cons p rl ih =>
    simp only [List.map_cons]
    rw [rlGet_cons]
    by_cases hp : p.1 = k
    · simp [show (p.1 == k) = true by simp [hp]]
    · have hpk : (p.1 == k) = false := by simp [hp]
      simp only [List.any_cons, hpk, Bool.false_or] at h
      simp only [hpk, Bool.false_eq_true, if_false, ih h]

theorem rlGet_append_self (rl : ResourceList) (k : String) (v : Qty)
    (h : rl.any (fun p => p.1 == k) = false) :
    rlGet (rl ++ [(k, v)]) k = v := by
  induction rl with
  | nil => simp [rlGet_cons]
  | cons p rl ih =>
    simp only [List.any_cons, Bool.or_eq_false_iff] at h
    simp only [List.cons_append]
    rw [rlGet_cons]
    simp only [h.1, Bool.false_eq_true, if_false]
    exact ih h.2

theorem rlGet_append_other (rl : ResourceList) (k k2 : String) (v : Qty) (h : k ≠ k2) :
    rlGet (rl ++ [(k, v)]) k2 = rlGet rl k2 := by
  induction rl with
  | nil =>
    rw [List.nil_append, rlGet_cons]
    simp [show (k == k2) = false by simp [h], rlGet_nil]
  | cons p rl ih =>
    simp only [List.cons_append]
    rw [rlGet_cons, rlGet_cons]
    by_cases h2 : p.1 = k2
    · simp [show (p.1 == k2) = true by simp [h2]]
    · simp only [show (p.1 == k2) = false by simp [h2], Bool.false_eq_true, if_false, ih]

theorem rlGet_rlInsert (rl : ResourceList) (k k2 : String) (v : Qty) :
    rlGet (rlInsert rl k v) k2 = if k = k2 then v else rlGet rl k2 := by
  by_cases h : k = k2
  · subst h
    simp only [if_true]
    cases hany : rl.any (fun p => p.1 == k) with
    | true => simp only [rlInsert, hany, if_true, rlGet_map_replace_self rl k v hany]
    | false => simp only [rlInsert, hany, Bool.false_eq_true, if_false,
        rlGet_append_self rl k v hany]
  · simp only [if_neg h]
    cases hany : rl.any (fun p => p.1 == k) with
    | true => simp only [rlInsert, hany, if_true, rlGet_map_replace rl k k2 v h]
    | false => simp only [rlInsert, hany, Bool.false_eq_true, if_false,
        rlGet_append_other rl k k2 v h]

theorem rlGet_eq_zero_of_not_mem_keys (rl : ResourceList) (k : String)
    (h : k ∉ rlKeys rl) : rlGet rl k = 0 := by
  induction rl with
  | nil => rfl
  | cons p rl ih =>
    simp only [rlKeys, List.map_cons, List.mem_cons, not_or] at h
    rw [rlGet_cons]
    have hp : (p.1 == k) = false := by
      simp only [beq_eq_false_iff_ne, ne_eq]
      intro hc
      exact h.1 hc.symm
    simp only [hp, Bool.false_eq_true, if_false]
    exact ih (by simpa [rlKeys] using h.2)

/-! ## Floor application lemmas -/

theorem applyFloor_nil (req : ResourceList) : applyFloor req [] = req := rfl

theorem applyFloor_cons (req : ResourceList) (kv : String × Qty) (fl : ResourceList) :
    applyFloor req (kv :: fl) =
      applyFloor (if rlGet req kv.1 < kv.2 then rlInsert req kv.1 kv.2 else req) fl := rfl

theorem rlGet_applyFloor_not_mem (fl : ResourceList) (req : ResourceList) (k : String)
    (h : k ∉ rlKeys fl) : rlGet (applyFloor req fl) k = rlGet req k := by
  induction fl generalizing req with
  | nil => rfl
  | cons kv fl ih =>
    simp only [rlKeys, List.map_cons, List.mem_cons, not_or] at h
    rw [applyFloor_cons]
    have hk : kv.1 ≠ k := fun hc => h.1 hc.symm
    have htail : k ∉ rlKeys fl := by simpa [rlKeys] using h.2
    by_cases hc : rlGet req kv.1 < kv.2
    · rw [if_pos hc, ih _ htail, rlGet_rlInsert, if_neg hk]
    · rw [if_neg hc, ih _ htail]

theorem rlGet_applyFloor_mem (fl : ResourceList) (req : ResourceList) (k : String)
    (hnd : (rlKeys fl).Nodup) (hk : k ∈ rlKeys fl) :
    rlGet (applyFloor req fl) k = max (rlGet req k) (rlGet fl k) := by
  induction fl generalizing req with
  | nil => simp [rlKeys] at hk
  | cons kv fl ih =>
    have hnd' : kv.1 ∉ rlKeys fl ∧ (rlKeys fl).Nodup := by
      simpa [rlKeys] using hnd
    rw [applyFloor_cons, rlGet_cons]
    by_cases he : kv.1 = k
    · simp only [show (kv.1 == k) = true by simp [he], if_true]
      have hkk : k ∉ rlKeys fl := he ▸ hnd'.1
      rw [rlGet_applyFloor_not_mem fl _ k hkk]
      by_cases hc : rlGet req kv.1 < kv.2
      · rw [if_pos hc, rlGet_rlInsert, if_pos he]
        exact (max_eq_right (le_of_lt (he ▸ hc))).symm
      · rw [if_neg hc]
        exact (max_eq_left (not_lt.mp (he ▸ hc))).symm
    · simp only [show (kv.1 == k) = false by simp [he], Bool.false_eq_true, if_false]
      have hkfl : k ∈ rlKeys fl := by
        simp only [rlKeys, List.map_cons, List.mem_cons] at hk
        exact hk.resolve_left (fun hc => he hc.symm)
      have hreq : rlGet (if rlGet req kv.1 < kv.2 then rlInsert req kv.1 kv.2 else req) k
          = rlGet req k := by
        by_cases hc : rlGet req kv.1 < kv.2
        · rw [if_pos hc, rlGet_rlInsert, if_neg he]
        · rw [if_neg hc]
      rw [ih _ hnd'.2 hkfl, hreq]

theorem rlGet_applyFloor (fl : ResourceList) (req : ResourceList) (k : String)
    (hnd : (rlKeys fl).Nodup) (hnn : 0 ≤ rlGet req k) :
    rlGet (applyFloor req fl) k = max (rlGet req k) (rlGet fl k) := by
  by_cases hk : k ∈ rlKeys fl
  · exact rlGet_applyFloor_mem fl req k hnd hk
  · rw [rlGet_applyFloor_not_mem fl req k hk, rlGet_eq_zero_of_not_mem_keys fl k hk]
    exact (max_eq_left hnn).symm

theorem rlGet_le_applyFloor (fl : ResourceList) (req : ResourceList) (k : String) :
    rlGet req k ≤ rlGet (applyFloor req fl) k := by
  induction fl generalizing req with
  | nil => exact le_refl _
  | cons kv fl ih =>
    rw [applyFloor_cons]
    refine le_trans ?_ (ih _)
    by_cases hc : rlGet req kv.1 < kv.2
    · rw [if_pos hc, rlGet_rlInsert]
      by_cases he : kv.1 = k
      · rw [if_pos he]
        exact le_of_lt (he ▸ hc)
      · rw [if_neg he]
    · rw [if_neg hc]

theorem applyFloor_eq_of_ge (fl : ResourceList) (req : ResourceList)
    (h : ∀ kv ∈ fl, kv.2 ≤ rlGet req kv.1) : applyFloor req fl = req := by
  induction fl with
  | nil => rfl
  | cons kv fl ih =>
    rw [applyFloor_cons, if_neg (not_lt.mpr (h kv (List.mem_cons_self _ _)))]
    exact ih (fun x hx => h x (List.mem_cons_of_mem _ hx))

/-! ## Floor invariants: non-negative values, unique keys -/

theorem foldl_preserve {α β : Type _} (P : α → Prop) (f : α → β → α) :
    ∀ (l : List β) (acc : α), (∀ a b, P a → P (f a b)) → P acc → P (l.foldl f acc)
  | [], _, _, h => h
  | b :: l, acc, hstep, h => foldl_preserve P f l (f acc b) hstep (hstep acc b h)

theorem floorStep_nonneg (acc : ResourceList) (kv : String × Qty)
    (h : ∀ k, 0 ≤ rlGet acc k) :
    ∀ k, 0 ≤ rlGet (if rlGet acc kv.1 < kv.2 then rlInsert acc kv.1 kv.2 else acc) k := by
  intro k
  by_cases hc : rlGet acc kv.1 < kv.2
  · rw [if_pos hc, rlGet_rlInsert]
    by_cases he : kv.1 = k
    · rw [if_pos he]
      exact le_of_lt (lt_of_le_of_lt (h kv.1) hc)
    · rw [if_neg he]
      exact h k
  · rw [if_neg hc]
    exact h k

theorem floorMergeMin_nonneg (m acc : ResourceList) (h : ∀ k, 0 ≤ rlGet acc k) :
    ∀ k, 0 ≤ rlGet (floorMergeMin acc m) k :=
  foldl_preserve (fun a => ∀ k, 0 ≤ rlGet a k) _ m acc
    (fun a kv ha => floorStep_nonneg a kv ha) h

theorem allZeroQty_nonneg : ∀ k, 0 ≤ rlGet allZeroQty k := by
  intro k
  simp only [allZeroQty]
  rw [rlGet_cons, rlGet_cons, rlGet_cons]
  split_ifs <;> simp [rlGet_nil]

theorem getLimitRangeMinimum_nonneg (lrs : List LimitRange) :
    ∀ k, 0 ≤ rlGet (getLimitRangeMinimum lrs) k := by
  refine foldl_preserve (fun a => ∀ k, 0 ≤ rlGet a k) _ lrs allZeroQty ?_ allZeroQty_nonneg
  intro a lr ha
  refine foldl_preserve (fun a => ∀ k, 0 ≤ rlGet a k) _ lr.limits a ?_ ha
  intro a2 item ha2
  by_cases ht : (item.limitType == limitTypeContainer) = true
  · simp only [ht, if_true]
    cases item.minimum with
    | some m => exact floorMergeMin_nonneg m a2 ha2
    | none => exact ha2
  · simp only [ht, Bool.false_eq_true, if_false]
    exact ha2

theorem rlKeys_map_replace (rl : ResourceList) (k : String) (v : Qty) :
    rlKeys (rl.map (fun p => if p.1 == k then (k, v) else p)) = rlKeys rl := by
  induction rl with
  | nil => rfl
  | cons p rl ih =>
    simp only [rlKeys, List.map_cons] at ih ⊢
    have hd : (if (p.1 == k) = true then (k, v) else p).1 = p.1 := by
      by_cases hp : p.1 = k
      · simp [hp]
      · simp [show (p.1 == k) = false by simp [hp]]
    rw [hd, ih]

theorem rlInsert_nodup (rl : ResourceList) (k : String) (v : Qty)
    (h : (rlKeys rl).Nodup) : (rlKeys (rlInsert rl k v)).Nodup := by
  by_cases hany : rl.any (fun p => p.1 == k) = true
  · simp only [rlInsert, hany, if_true, rlKeys_map_replace]
    exact h
  · have hany' : rl.any (fun p => p.1 == k) = false := Bool.eq_false_iff.mpr hany
    simp only [rlInsert, hany', Bool.false_eq_true, if_false]
    have hk : k ∉ rlKeys rl := by
      intro hmem
      simp only [rlKeys, List.mem_map] at hmem
      obtain ⟨p, hp, hpk⟩ := hmem
      have htrue : rl.any (fun q => q.1 == k) = true := by
        refine List.any_eq_true.mpr ⟨p, hp, ?_⟩
        simp [hpk]
      rw [hany'] at htrue
      cases htrue
    simp only [rlKeys, List.map_append, List.map_cons, List.map_nil]
    rw [List.nodup_append]
    refine ⟨h, List.nodup_singleton _, ?_⟩
    intro a ha hb
    simp only [List.mem_singleton] at hb
    exact hk (by simpa [rlKeys, hb] using ha)

theorem floorStep_nodup (acc : ResourceList) (kv : String × Qty)
    (h : (rlKeys acc).Nodup) :
    (rlKeys (if rlGet acc kv.1 < kv.2 then rlInsert acc kv.1 kv.2 else acc)).Nodup := by
  by_cases hc : rlGet acc kv.1 < kv.2
  · rw [if_pos hc]
    exact rlInsert_nodup acc kv.1 kv.2 h
  · rw [if_neg hc]
    exact h

theorem floorMergeMin_nodup (m acc : ResourceList) (h : (rlKeys acc).Nodup) :
    (rlKeys (floorMergeMin acc m)).Nodup :=
  foldl_preserve (fun a => (rlKeys a).Nodup) _ m acc
    (fun a kv ha => floorStep_nodup a kv ha) h

theorem getLimitRangeMinimum_nodup (lrs : List LimitRange) :
    (rlKeys (getLimitRangeMinimum lrs)).Nodup := by
  refine foldl_preserve (fun a => (rlKeys a).Nodup) _ lrs allZeroQty ?_ (by decide)
  intro a lr ha
  refine foldl_preserve (fun a => (rlKeys a).Nodup) _ lr.limits a ?_ ha
  intro a2 item ha2
  by_cases ht : (item.limitType == limitTypeContainer) = true
  · simp only [ht, if_true]
    cases item.minimum with
    | some m => exact floorMergeMin_nodup m a2 ha2
    | none => exact ha2
  · simp only [ht, Bool.false_eq_true, if_false]
    exact ha2

/-! ## Build structure lemmas -/

theorem build_ok_elim {flags : FeatureFlags} {b : BuilderOpts} {collab : Collab}
    {suffix : String} {tr : TaskRun} {ts : TaskSpec} {out : BuildOut}
    (h : build flags b collab suffix tr ts = .ok out) :
    out = assembleOut flags b collab suffix tr ts := by
  unfold build at h
  split_ifs at h <;>
    first
      | exact Except.noConfusion h
      | (injection h with h2; exact h2.symm)

theorem mapIdxAux_length (f : Nat → α → β) (n : Nat) (l : List α) :
    (mapIdxAux f n l).length = l.length := by
  induction l generalizing n with
  | nil => rfl
  | cons a as ih => simp [mapIdxAux, ih]

theorem mapIdxAux_get? (f : Nat → α → β) (n i : Nat) (l : List α) :
    (mapIdxAux f n l).get? i = (l.get? i).map (f (n + i)) := by
  induction l generalizing n i with
  | nil => simp [mapIdxAux]
  | cons a as ih =>
    cases i with
    | zero => simp [mapIdxAux]
    | succ j =>
      have harith : n + 1 + j = n + (j + 1) := by omega
      show (mapIdxAux f (n + 1) as).get? j = (as.get? j).map (f (n + (j + 1)))
      rw [ih (n + 1) j, harith]

theorem resolveResourceRequests_get? (cs : List Container) (lrm : ResourceList) (i : Nat) :
    (resolveResourceRequests cs lrm).get? i =
      (cs.get? i).map (fun c =>
        { c with resources := { c.resources with requests := applyFloor c.resources.requests lrm } }) := by
  simp [resolveResourceRequests, List.get?_map]

theorem prependImplicitEnv_get? (ivs : List EnvVar) (l : List Container) (i : Nat) :
    (prependImplicitEnv ivs l).get? i =
      (l.get? i).map (fun s => if ivs.length > 0 then { s with env := ivs ++ s.env } else s) := by
  unfold prependImplicitEnv
  by_cases hl : ivs.length > 0
  · rw [if_pos hl, List.get?_map]
    cases l.get? i with
    | none => rfl
    | some s => simp [hl]
  · rw [if_neg hl]
    cases hv : l.get? i with
    | none => rfl
    | some s => simp [hl]

theorem addHermeticEnv_get? (h : Bool) (l : List Container) (i : Nat) :
    (addHermeticEnv h l).get? i =
      (l.get? i).map (fun s =>
        if h then { s with env := s.env ++ [ { name := tektonHermeticEnvVar, value := "1" } ] }
        else s) := by
  unfold addHermeticEnv
  cases h with
  | true =>
    rw [if_pos rfl, List.get?_map]
    cases l.get? i with
    | none => rfl
    | some s => rfl
  | false =>
    rw [if_neg (by simp)]
    cases hv : l.get? i with
    | none => rfl
    | some s => rfl

theorem addImplicitMounts_snd_get? (flags : FeatureFlags) (vms : List VolumeMount)
    (l : List Container) (i : Nat) :
    (addImplicitMounts flags vms l).2.get? i =
      (l.get? i).map (fun s => (addImplicitMountsStep flags vms i s).2) := by
  unfold addImplicitMounts
  rw [List.get?_map, mapIdxAux_get?]
  cases l.get? i with
  | none => rfl
  | some s => simp

theorem defaultDirAndName_get? (so : Bool) (l : List Container) (i : Nat) :
    (defaultDirAndName so l).get? i =
      (l.get? i).map (fun s =>
        let s1 := if s.workingDir = "" ∧ so then { s with workingDir := workspaceDir } else s
        { s1 with name := restrictLength (stepNameFor s.name i) }) := by
  unfold defaultDirAndName
  rw [mapIdxAux_get?]
  cases l.get? i with
  | none => rfl
  | some s => simp

theorem finalStepContainers_get? (flags : FeatureFlags) (b : BuilderOpts) (collab : Collab)
    (tr : TaskRun) (i : Nat) (c : Container)
    (hc : collab.orderedSteps.get? i = some c) :
    (finalStepContainers flags b collab tr).get? i =
      some (stepTransform flags b collab tr i c) := by
  unfold finalStepContainers mountsPhase stepsAfterEnv stepsAfterResources
  rw [defaultDirAndName_get?, addImplicitMounts_snd_get?, addHermeticEnv_get?,
    prependImplicitEnv_get?, resolveResourceRequests_get?, hc]
  rfl

theorem finalStepContainers_length (flags : FeatureFlags) (b : BuilderOpts) (collab : Collab)
    (tr : TaskRun) :
    (finalStepContainers flags b collab tr).length = collab.orderedSteps.length := by
  unfold finalStepContainers mountsPhase stepsAfterEnv stepsAfterResources
    defaultDirAndName addImplicitMounts prependImplicitEnv addHermeticEnv
    resolveResourceRequests
  split_ifs <;> simp [mapIdxAux_length]

theorem assembleOut_containers (flags : FeatureFlags) (b : BuilderOpts) (collab : Collab)
    (suffix : String) (tr : TaskRun) (ts : TaskSpec) :
    (assembleOut flags b collab suffix tr ts).pod.spec.containers =
      finalStepContainers flags b collab tr ++
        collab.convertedSidecars.map
          (fun sc => { sc with name := restrictLength (sidecarPre ++ sc.name) }) := rfl

theorem buildOut_containers_get? {flags : FeatureFlags} {b : BuilderOpts} {collab : Collab}
    {suffix : String} {tr : TaskRun} {ts : TaskSpec} {out : BuildOut} {i : Nat} {c : Container}
    (h : build flags b collab suffix tr ts = .ok out)
    (hc : collab.orderedSteps.get? i = some c) :
    out.pod.spec.containers.get? i = some (stepTransform flags b collab tr i c) := by
  obtain ⟨hi, -⟩ := List.get?_eq_some.mp hc
  rw [build_ok_elim h, assembleOut_containers,
    List.get?_append (by rw [finalStepContainers_length]; exact hi)]
  exact finalStepContainers_get? flags b collab tr i c hc

/-! ## Properties of the per-step transformation -/

theorem stepTransform_resources (flags : FeatureFlags) (b : BuilderOpts) (collab : Collab)
    (tr : TaskRun) (i : Nat) (c : Container) :
    (stepTransform flags b collab tr i c).resources =
      { requests := applyFloor c.resources.requests (getLimitRangeMinimum collab.limitRanges)
        limits := c.resources.limits } := by
  unfold stepTransform addImplicitMountsStep
  dsimp only
  split_ifs <;> rfl

theorem stepTransform_env (flags : FeatureFlags) (b : BuilderOpts) (collab : Collab)
    (tr : TaskRun) (i : Nat) (c : Container) :
    (stepTransform flags b collab tr i c).env =
      buildImplicitEnvVars b ++ c.env ++
        (if hermeticRequested flags tr then [ { name := tektonHermeticEnvVar, value := "1" } ]
         else []) := by
  unfold stepTransform addImplicitMountsStep
  dsimp only
  have hcase : (buildImplicitEnvVars b).length > 0 ∨ buildImplicitEnvVars b = [] := by
    cases hbv : buildImplicitEnvVars b with
    | nil => exact Or.inr rfl
    | cons x xs => exact Or.inl (by simp)
  rcases hcase with hpos | hnil
  · rw [if_pos hpos]
    by_cases hh : hermeticRequested flags tr = true
    · rw [if_pos hh, if_pos hh]
      split_ifs <;> simp [List.append_assoc]
    · rw [if_neg hh, if_neg hh]
      split_ifs <;> simp
  · rw [hnil]
    simp only [List.length_nil, gt_iff_lt, lt_irrefl, if_false, List.nil_append]
    by_cases hh : hermeticRequested flags tr = true
    · rw [if_pos hh, if_pos hh]
      split_ifs <;> rfl
    · rw [if_neg hh, if_neg hh]
      split_ifs <;> simp

theorem stepTransform_mounts (flags : FeatureFlags) (b : BuilderOpts) (collab : Collab)
    (tr : TaskRun) (i : Nat) (c : Container) :
    (stepTransform flags b collab tr i c).volumeMounts =
      mountsWithCreds flags i c.volumeMounts ++
        (allImplicitMounts collab).filter
          (fun imp => !(((mountsWithCreds flags i c.volumeMounts).map
              (fun vm => cleanPath vm.mountPath)).contains (cleanPath imp.mountPath))) := by
  by_cases hcr : flags.disableCredsInit = true
  · simp only [stepTransform, addImplicitMountsStep, mountsWithCreds, getCredsInitVolume,
      hcr, if_true]
    split_ifs <;> rfl
  · have hcr2 : flags.disableCredsInit = false := Bool.eq_false_iff.mpr hcr
    simp only [stepTransform, addImplicitMountsStep, mountsWithCreds, getCredsInitVolume,
      hcr2, Bool.false_eq_true, if_false]
    split_ifs <;> rfl

/-! ## Volume membership -/

theorem credsVolume_mem_mountsPhase (flags : FeatureFlags) (b : BuilderOpts)
    (collab : Collab) (tr : TaskRun) (i : Nat) (c : Container)
    (hc : collab.orderedSteps.get? i = some c)
    (hcr : flags.disableCredsInit = false) :
    credsVolumeFor i ∈ (mountsPhase flags b collab tr).1 := by
  have hs : ∃ s, (stepsAfterEnv flags b collab tr).get? i = some s := by
    unfold stepsAfterEnv stepsAfterResources
    rw [addHermeticEnv_get?, prependImplicitEnv_get?, resolveResourceRequests_get?, hc]
    exact ⟨_, rfl⟩
  obtain ⟨s, hs⟩ := hs
  unfold mountsPhase addImplicitMounts
  rw [List.mem_join]
  refine ⟨(addImplicitMountsStep flags (allImplicitMounts collab) i s).1, ?_, ?_⟩
  · have hget : ((mapIdxAux
          (fun j s => addImplicitMountsStep flags (allImplicitMounts collab) j s) 0
          (stepsAfterEnv flags b collab tr)).map Prod.fst).get? i =
        some (addImplicitMountsStep flags (allImplicitMounts collab) i s).1 := by
      rw [List.get?_map, mapIdxAux_get?, hs]
      simp
    exact List.get?_mem hget
  · unfold addImplicitMountsStep getCredsInitVolume
    rw [hcr]
    simp

theorem assembleOut_volumes (flags : FeatureFlags) (b : BuilderOpts) (collab : Collab)
    (suffix : String) (tr : TaskRun) (ts : TaskSpec) :
    (assembleOut flags b collab suffix tr ts).pod.spec.volumes =
      allVolumes flags b collab tr ts := rfl

theorem credsVolume_mem_allVolumes (flags : FeatureFlags) (b : BuilderOpts)
    (collab : Collab) (tr : TaskRun) (ts : TaskSpec) (i : Nat) (c : Container)
    (hc : collab.orderedSteps.get? i = some c)
    (hcr : flags.disableCredsInit = false) :
    credsVolumeFor i ∈ allVolumes flags b collab tr ts := by
  unfold allVolumes
  have hm := credsVolume_mem_mountsPhase flags b collab tr i c hc hcr
  simp only [List.mem_append]
  tauto

/-! ## Last-wins environment lookup lemmas -/

theorem envFold_acc (l : List EnvVar) (n : String) (acc : Option String) :
    l.foldl (fun a e => if e.name == n then some e.value else a) acc =
      match lastEnvValue l n with
      | some v => some v
      | none => acc := by
  induction l generalizing acc with
  | nil => simp [lastEnvValue]
  | cons e l ih =>
    show l.foldl _ (if e.name == n then some e.value else acc) = _
    rw [ih]
    have hcons : lastEnvValue (e :: l) n =
        l.foldl (fun a e => if e.name == n then some e.value else a)
          (if e.name == n then some e.value else none) := rfl
    rw [hcons, ih]
    cases hl : lastEnvValue l n with
    | some v => rfl
    | none => cases he : (e.name == n) <;> simp

theorem lastEnvValue_append (l1 l2 : List EnvVar) (n : String) :
    lastEnvValue (l1 ++ l2) n =
      match lastEnvValue l2 n with
      | some v => some v
      | none => lastEnvValue l1 n := by
  show (l1 ++ l2).foldl _ none = _
  rw [List.foldl_append]
  exact envFold_acc l2 n _

/-! ## Reference matcher lemmas -/

theorem findAllRefsFuel_eq_nil (fuel : Nat) (l : List Char)
    (h : containsRefAux l = false) : findAllRefsFuel fuel l = [] := by
  induction fuel generalizing l with
  | zero => rfl
  | succ n ih =>
    cases l with
    | nil => rfl
    | cons c cs =>
      simp only [containsRefAux, Bool.or_eq_false_iff] at h
      have hm : refMatchHere (c :: cs) = none := by
        cases hm2 : refMatchHere (c :: cs) with
        | none => rfl
        | some p =>
          rw [hm2] at h
          simp at h
      simp only [findAllRefsFuel, hm]
      exact ih cs h.2

/-! ## Claim C3 -/

/-- C3: Resolve combines multiple namespace minimum declarations for the
same resource name by taking the pointwise maximum. Given declarations of
100 milli and 250 milli cpu the floor is 250 milli; applying that floor
raises a step requesting 50 milli to 250 milli and leaves a step requesting
300 milli entirely unchanged. -/
theorem c3_resolve_takes_pointwise_maximum :
    rlGet (getLimitRangeMinimum exampleLimitRanges) "cpu" = 250 ∧
    resolveResourceRequests [exampleStepLow, exampleStepHigh]
        (getLimitRangeMinimum exampleLimitRanges) =
      [ { exampleStepLow with resources := { requests := [("cpu", 250)], limits := [] } },
        exampleStepHigh ] := by
  refine ⟨by decide, by decide⟩

/-! ## Claim C2 -/

/-- C2: for every step with policy Continue whose real command exits with a
non-zero code (no timeout, no external signal), the wrapper produces an
outcome with reason erroredIgnored recording the real exit code, writes the
completion marker so the successor wait condition becomes satisfiable, and
exits 0 toward the platform. -/
theorem c2_continue_nonzero_exit_ignored (r : WrapperRun)
    (hp : r.policy = .continueStep) (he : r.realExitCode ≠ 0)
    (ht : r.timedOut = false) (hsig : r.signaled = false) :
    (runWrapper r).outcome.reason = .erroredIgnored ∧
    (runWrapper r).outcome.exitCode = r.realExitCode ∧
    (runWrapper r).markerWritten = true ∧
    successorWaitSatisfiable (runWrapper r) = true ∧
    (runWrapper r).platformExitCode = 0 := by
  unfold runWrapper successorWaitSatisfiable
  simp [hsig, ht, he, hp]

/-- Witness for C2 at the fixture-like input: policy Continue, real exit
code 11, one captured result. -/
theorem c2_witness :
    (runWrapper exampleWrapperRun).outcome.reason = .erroredIgnored ∧
    (runWrapper exampleWrapperRun).outcome.exitCode = exampleWrapperRun.realExitCode ∧
    (runWrapper exampleWrapperRun).markerWritten = true ∧
    successorWaitSatisfiable (runWrapper exampleWrapperRun) = true ∧
    (runWrapper exampleWrapperRun).platformExitCode = 0 :=
  c2_continue_nonzero_exit_ignored exampleWrapperRun rfl (by decide) rfl rfl

/-! ## Claim C9 -/

/-- C9: encoding a step outcome whose payload exceeds 4096 bytes fails with
the length error, never returns any payload as a success; the length error
is a failure kind distinct from every step-execution failure; and every
successful encoding returns the exact untruncated payload within the
ceiling. -/
theorem c9_oversize_payload_length_error (o o2 : StepOutcome) (s : String)
    (e : MessageLengthError) (cx : Nat)
    (h : maxTerminationMessageLength < (encodePayload o).length) :
    encodeOutcome o = .error errTooLong ∧
    encodeOutcome o ≠ .ok s ∧
    FailureCause.encoding e ≠ FailureCause.stepExecution cx ∧
    (encodeOutcome o2 = .ok s →
      s = encodePayload o2 ∧ s.length ≤ maxTerminationMessageLength) := by
  refine ⟨?_, ?_, ?_, ?_⟩
  · unfold encodeOutcome
    exact if_pos h
  · intro hs
    unfold encodeOutcome at hs
    rw [if_pos h] at hs
    exact Except.noConfusion hs
  · intro heq
    exact FailureCause.noConfusion heq
  · intro hs
    unfold encodeOutcome at hs
    by_cases h2 : (encodePayload o2).length > maxTerminationMessageLength
    · rw [if_pos h2] at hs
      exact Except.noConfusion hs
    · rw [if_neg h2] at hs
      injection hs with hs2
      exact ⟨hs2.symm, hs2 ▸ Nat.not_lt.mp h2⟩

/-- Witness for C9 at an outcome whose one result value is 4200 bytes. -/
theorem c9_witness :
    encodeOutcome exampleBigOutcome = .error errTooLong ∧
    encodeOutcome exampleBigOutcome ≠ .ok "" ∧
    FailureCause.encoding errTooLong ≠ FailureCause.stepExecution 11 ∧
    (encodeOutcome exampleBigOutcome = .ok "" →
      "" = encodePayload exampleBigOutcome ∧
      String.length "" ≤ maxTerminationMessageLength) :=
  c9_oversize_payload_length_error exampleBigOutcome exampleBigOutcome "" errTooLong 11
    (by
      have hbig : (String.mk (List.replicate 4200 'a')).length = 4200 := by
        show (List.replicate 4200 'a').length = 4200
        rw [List.length_replicate]
      show maxTerminationMessageLength < (encodePayload exampleBigOutcome).length
      simp only [encodePayload, exampleBigOutcome, reasonText, String.join, List.map,
        List.foldl, String.length_append, hbig, maxTerminationMessageLength]
      decide)

/-! ## Claim C4 (corrected) -/

/-- C4 counterexample: on an input with no reference, validateString reaches
the Go `return nil` branch and yields the nil slice (modelled none), not a
present empty list. -/
theorem c4_counterexample :
    containsRef "hello world" = false ∧
    validateString "hello world" = none ∧
    validateString "hello world" ≠ some [] := by
  refine ⟨by decide, by decide, by decide⟩

/-- C4 as amended: for every input string containing no reference,
validateString returns the nil slice (none) - a zero-length result and never
an error - rather than a present empty collection. -/
theorem c4_amended_no_reference_yields_nil (s : String)
    (h : containsRef s = false) : validateString s = none := by
  unfold validateString findAllRefs
  rw [findAllRefsFuel_eq_nil s.data.length s.data h]
  rfl

/-- Witness for the amended C4 on a concrete reference-free string. -/
theorem c4_amended_witness :
    containsRef "no refs here" = false ∧ validateString "no refs here" = none :=
  ⟨by decide, c4_amended_no_reference_yields_nil "no refs here" (by decide)⟩

/-! ## Claim C1 -/

/-- C1: after a successful Build, the request of each step container for each
resource equals the maximum of its declared request and the resolved
namespace floor; requests already at or above the floor, and all limits,
are unchanged; no request is ever lowered. Declared requests are assumed
non-negative, as platform validation guarantees. -/
theorem c1_floor_never_lowers_requests (flags : FeatureFlags) (b : BuilderOpts)
    (collab : Collab) (suffix : String) (tr : TaskRun) (ts : TaskSpec) (out : BuildOut)
    (i : Nat) (c : Container) (k : String)
    (h : build flags b collab suffix tr ts = .ok out)
    (hc : collab.orderedSteps.get? i = some c)
    (hnn : ∀ k2, 0 ≤ rlGet c.resources.requests k2) :
    out.pod.spec.containers.get? i = some (stepTransform flags b collab tr i c) ∧
    rlGet (stepTransform flags b collab tr i c).resources.requests k =
      max (rlGet c.resources.requests k) (rlGet (getLimitRangeMinimum collab.limitRanges) k) ∧
    (stepTransform flags b collab tr i c).resources.limits = c.resources.limits ∧
    rlGet c.resources.requests k ≤
      rlGet (stepTransform flags b collab tr i c).resources.requests k ∧
    ((∀ kv ∈ getLimitRangeMinimum collab.limitRanges, kv.2 ≤ rlGet c.resources.requests kv.1) →
      (stepTransform flags b collab tr i c).resources.requests = c.resources.requests) := by
  have hres := stepTransform_resources flags b collab tr i c
  refine ⟨buildOut_containers_get? h hc, ?_, ?_, ?_, ?_⟩
  · rw [hres]
    exact rlGet_applyFloor _ _ _ (getLimitRangeMinimum_nodup _) (hnn k)
  · rw [hres]
  · rw [hres]
    exact rlGet_le_applyFloor _ _ _
  · intro hge
    rw [hres]
    exact applyFloor_eq_of_ge _ _ hge

/-- Witness for C1 at the demo scenario: a 50-milli cpu request raised by a
250-milli floor. -/
theorem c1_witness :
    demoOut.pod.spec.containers.get? 0 =
      some (stepTransform demoFlags demoB demoCollab demoRun 0 demoStep) ∧
    rlGet (stepTransform demoFlags demoB demoCollab demoRun 0 demoStep).resources.requests
        "cpu" =
      max (rlGet demoStep.resources.requests "cpu")
        (rlGet (getLimitRangeMinimum demoCollab.limitRanges) "cpu") ∧
    (stepTransform demoFlags demoB demoCollab demoRun 0 demoStep).resources.limits =
      demoStep.resources.limits ∧
    rlGet demoStep.resources.requests "cpu" ≤
      rlGet (stepTransform demoFlags demoB demoCollab demoRun 0 demoStep).resources.requests
        "cpu" ∧
    ((∀ kv ∈ getLimitRangeMinimum demoCollab.limitRanges,
        kv.2 ≤ rlGet demoStep.resources.requests kv.1) →
      (stepTransform demoFlags demoB demoCollab demoRun 0 demoStep).resources.requests =
        demoStep.resources.requests) :=
  c1_floor_never_lowers_requests demoFlags demoB demoCollab "sfx" demoRun demoSpec demoOut
    0 demoStep "cpu" (by decide) (by decide)
    (by
      intro k2
      show 0 ≤ rlGet [("cpu", (50 : Qty))] k2
      rw [rlGet_cons]
      split_ifs <;> norm_num [rlGet_nil])

/-! ## Claim C5 -/

/-- C5: the scheduling affinity of the assembled unit comes from exactly one
source. When the request carries a non-empty co-location group annotation,
the affinity is the affinity-assistant pod affinity - an exact label match
on the group name at host-level topology, with no node affinity and no
anti-affinity, discarding the user affinity. Otherwise the user affinity of
the pod template is passed through unchanged. -/
theorem c5_affinity_exactly_one_source (flags : FeatureFlags) (b : BuilderOpts)
    (collab : Collab) (suffix : String) (tr : TaskRun) (ts : TaskSpec) (out : BuildOut)
    (h : build flags b collab suffix tr ts = .ok out) :
    (mapGet tr.annots affinityAssistantKey ≠ "" →
      out.pod.spec.affinity =
        some (nodeAffinityUsingAffinityAssistant (mapGet tr.annots affinityAssistantKey))) ∧
    (mapGet tr.annots affinityAssistantKey = "" →
      out.pod.spec.affinity = (podTemplateOf tr).affinity) ∧
    (nodeAffinityUsingAffinityAssistant (mapGet tr.annots affinityAssistantKey)).podAffinity =
      some [ { matchLabels := [ (labelInstanceKey, mapGet tr.annots affinityAssistantKey),
                                (labelComponentKey, componentNameAffinityAssistant) ],
               topologyKey := hostTopologyKey } ] ∧
    (nodeAffinityUsingAffinityAssistant
      (mapGet tr.annots affinityAssistantKey)).nodeAffinity = none ∧
    (nodeAffinityUsingAffinityAssistant
      (mapGet tr.annots affinityAssistantKey)).podAntiAffinity = none := by
  refine ⟨?_, ?_, rfl, rfl, rfl⟩
  · intro hne
    rw [build_ok_elim h]
    show (if mapGet tr.annots affinityAssistantKey ≠ "" then
        some (nodeAffinityUsingAffinityAssistant (mapGet tr.annots affinityAssistantKey))
      else (podTemplateOf tr).affinity) = _
    rw [if_pos hne]
  · intro heq
    rw [build_ok_elim h]
    show (if mapGet tr.annots affinityAssistantKey ≠ "" then
        some (nodeAffinityUsingAffinityAssistant (mapGet tr.annots affinityAssistantKey))
      else (podTemplateOf tr).affinity) = _
    rw [if_neg (fun hcon => hcon heq)]

/-- Witness for C5 at the demo request carrying a co-location group
annotation and a user-declared affinity. -/
theorem c5_witness :
    (mapGet demoRunAffinity.annots affinityAssistantKey ≠ "" →
      demoOutAffinity.pod.spec.affinity =
        some (nodeAffinityUsingAffinityAssistant
          (mapGet demoRunAffinity.annots affinityAssistantKey))) ∧
    (mapGet demoRunAffinity.annots affinityAssistantKey = "" →
      demoOutAffinity.pod.spec.affinity = (podTemplateOf demoRunAffinity).affinity) ∧
    (nodeAffinityUsingAffinityAssistant
        (mapGet demoRunAffinity.annots affinityAssistantKey)).podAffinity =
      some [ { matchLabels :=
                 [ (labelInstanceKey, mapGet demoRunAffinity.annots affinityAssistantKey),
                   (labelComponentKey, componentNameAffinityAssistant) ],
               topologyKey := hostTopologyKey } ] ∧
    (nodeAffinityUsingAffinityAssistant
      (mapGet demoRunAffinity.annots affinityAssistantKey)).nodeAffinity = none ∧
    (nodeAffinityUsingAffinityAssistant
      (mapGet demoRunAffinity.annots affinityAssistantKey)).podAntiAffinity = none :=
  c5_affinity_exactly_one_source demoFlags demoB demoCollab "sfx" demoRunAffinity demoSpec
    demoOutAffinity (by decide)

/-! ## Claim C10 -/

/-- C10: the hermetic-mode variable is appended to step environments only
when the execution-mode annotation equals hermetic and the alpha API gate is
enabled; when either condition fails the hermetic layer leaves every step
environment untouched (the environment is exactly the implicit prefix
followed by the declared variables). -/
theorem c10_hermetic_env_gating (flags : FeatureFlags) (b : BuilderOpts)
    (collab : Collab) (suffix : String) (tr : TaskRun) (ts : TaskSpec) (out : BuildOut)
    (i : Nat) (c : Container)
    (h : build flags b collab suffix tr ts = .ok out)
    (hc : collab.orderedSteps.get? i = some c) :
    out.pod.spec.containers.get? i = some (stepTransform flags b collab tr i c) ∧
    hermeticRequested flags tr =
      ((mapGet tr.annots executionModeKey == executionModeHermetic) &&
        flags.enableAPIFieldsAlpha) ∧
    (hermeticRequested flags tr = false →
      (stepTransform flags b collab tr i c).env = buildImplicitEnvVars b ++ c.env) ∧
    (hermeticRequested flags tr = true →
      (stepTransform flags b collab tr i c).env =
        buildImplicitEnvVars b ++ c.env ++
          [ { name := tektonHermeticEnvVar, value := "1" } ]) := by
  have henv := stepTransform_env flags b collab tr i c
  refine ⟨buildOut_containers_get? h hc, rfl, ?_, ?_⟩
  · intro hh
    rw [henv, hh]
    simp
  · intro hh
    rw [henv, hh]
    simp

/-- Witness for C10 at the hermetic demo scenario: alpha gate on and the
execution-mode annotation set to hermetic. -/
theorem c10_witness :
    demoOutHermetic.pod.spec.containers.get? 0 =
      some (stepTransform demoFlagsAlpha demoB demoCollab demoRunHermetic 0 demoStep) ∧
    hermeticRequested demoFlagsAlpha demoRunHermetic =
      ((mapGet demoRunHermetic.annots executionModeKey == executionModeHermetic) &&
        demoFlagsAlpha.enableAPIFieldsAlpha) ∧
    (hermeticRequested demoFlagsAlpha demoRunHermetic = false →
      (stepTransform demoFlagsAlpha demoB demoCollab demoRunHermetic 0 demoStep).env =
        buildImplicitEnvVars demoB ++ demoStep.env) ∧
    (hermeticRequested demoFlagsAlpha demoRunHermetic = true →
      (stepTransform demoFlagsAlpha demoB demoCollab demoRunHermetic 0 demoStep).env =
        buildImplicitEnvVars demoB ++ demoStep.env ++
          [ { name := tektonHermeticEnvVar, value := "1" } ]) :=
  c10_hermetic_env_gating demoFlagsAlpha demoB demoCollab "sfx" demoRunHermetic demoSpec
    demoOutHermetic 0 demoStep (by decide) (by decide)

/-! ## Claim C6 (corrected) -/

/-- C6 counterexample: with the HOME override enabled and a user-declared
HOME variable, the final step environment places the injected HOME default
first and the user variable after it, so the user variable does not precede
the injected default (the order the claim asserts is not a subsequence of
the actual environment). -/
theorem c6_counterexample :
    stepEnvsOf (build demoFlags demoB demoCollab "sfx" demoRun demoSpec) =
      some [[ { name := "HOME", value := homeDir },
              { name := "HOME", value := "/my-home" } ]] ∧
    ¬ List.Sublist
        ([ { name := "HOME", value := "/my-home" },
           { name := "HOME", value := homeDir } ] : List EnvVar)
        [ { name := "HOME", value := homeDir }, { name := "HOME", value := "/my-home" } ] := by
  refine ⟨by decide, by decide⟩

/-- C6 as amended: the injected HOME default precedes the user-declared
variables (the final environment is the HOME default consed onto the user
list), the user-declared HOME therefore comes later and wins under the
last-entry-wins resolution of the platform, and the hermetic variable is
appended after all user variables so it wins even over a same-named user
variable. -/
theorem c6_amended_home_follows_and_wins (flags : FeatureFlags) (b : BuilderOpts)
    (collab : Collab) (suffix : String) (tr : TaskRun) (ts : TaskSpec) (out : BuildOut)
    (i : Nat) (c : Container) (v : String)
    (h : build flags b collab suffix tr ts = .ok out)
    (hc : collab.orderedSteps.get? i = some c)
    (hov : b.overrideHomeEnv = true)
    (hv : lastEnvValue c.env "HOME" = some v) :
    out.pod.spec.containers.get? i = some (stepTransform flags b collab tr i c) ∧
    (stepTransform flags b collab tr i c).env =
      { name := "HOME", value := homeDir } ::
        (c.env ++ (if hermeticRequested flags tr then
            [ { name := tektonHermeticEnvVar, value := "1" } ] else [])) ∧
    lastEnvValue (stepTransform flags b collab tr i c).env "HOME" = some v ∧
    (hermeticRequested flags tr = true →
      lastEnvValue (stepTransform flags b collab tr i c).env tektonHermeticEnvVar =
        some "1") := by
  have henv := stepTransform_env flags b collab tr i c
  have hivs : buildImplicitEnvVars b = [ { name := "HOME", value := homeDir } ] := by
    unfold buildImplicitEnvVars
    rw [hov]
    rfl
  refine ⟨buildOut_containers_get? h hc, ?_, ?_, ?_⟩
  · rw [henv, hivs]
    simp
  · rw [henv, hivs, lastEnvValue_append]
    cases hh : hermeticRequested flags tr with
    | false =>
      simp only [hh, Bool.false_eq_true, if_false]
      show lastEnvValue ([ { name := "HOME", value := homeDir } ] ++ c.env) "HOME" = some v
      rw [lastEnvValue_append, hv]
    | true =>
      simp only [hh, if_true]
      have hnone :
          lastEnvValue [ { name := tektonHermeticEnvVar, value := "1" } ] "HOME" = none := by
        decide
      rw [hnone]
      show lastEnvValue ([ { name := "HOME", value := homeDir } ] ++ c.env) "HOME" = some v
      rw [lastEnvValue_append, hv]
  · intro hh
    rw [henv, hivs, hh]
    simp only [if_true]
    rw [lastEnvValue_append]
    have h1 : lastEnvValue [ { name := tektonHermeticEnvVar, value := "1" } ]
        tektonHermeticEnvVar = some "1" := by decide
    rw [h1]

/-- Witness for the amended C6 at the demo scenario: user HOME value
my-home wins over the injected default. -/
theorem c6_amended_witness :
    demoOut.pod.spec.containers.get? 0 =
      some (stepTransform demoFlags demoB demoCollab demoRun 0 demoStep) ∧
    (stepTransform demoFlags demoB demoCollab demoRun 0 demoStep).env =
      { name := "HOME", value := homeDir } ::
        (demoStep.env ++ (if hermeticRequested demoFlags demoRun then
            [ { name := tektonHermeticEnvVar, value := "1" } ] else [])) ∧
    lastEnvValue (stepTransform demoFlags demoB demoCollab demoRun 0 demoStep).env "HOME" =
      some "/my-home" ∧
    (hermeticRequested demoFlags demoRun = true →
      lastEnvValue (stepTransform demoFlags demoB demoCollab demoRun 0 demoStep).env
          tektonHermeticEnvVar = some "1") :=
  c6_amended_home_follows_and_wins demoFlags demoB demoCollab "sfx" demoRun demoSpec demoOut
    0 demoStep "/my-home" (by decide) (by decide) (by decide) (by decide)

/-! ## Claim C7 (corrected) -/

/-- C7 counterexample: a sidecar container passes through Build with its
volume mounts unchanged - none of the implicit mounts is added to it even
though the sidecar shadows no path - and with the legacy credential helper
disabled no step-private credentials volume is added either. -/
theorem c7_counterexample :
    stepMountsOf (build demoFlagsNoCreds demoB demoCollabSidecar "sfx" demoRun
        demoSpecSidecar) =
      some [implicitVolumeMounts, []] ∧
    implicitVolumeMounts ≠ [] ∧
    credsVolumeFor 0 ∉ demoOutSidecar.pod.spec.volumes := by
  refine ⟨by decide, by decide, by decide⟩

/-- C7 as amended: every implicit volume mount is added to every step
container - sidecar containers are not touched - unless the mount
list of the step (its declared mounts plus the just-added credentials
mount) already claims the identical cleaned path; and each step receives its step-private
credentials-staging volume and mount whenever the legacy credential helper
is enabled. -/
theorem c7_implicit_mounts_to_steps (flags : FeatureFlags) (b : BuilderOpts)
    (collab : Collab) (suffix : String) (tr : TaskRun) (ts : TaskSpec) (out : BuildOut)
    (i : Nat) (c : Container) (imp : VolumeMount)
    (h : build flags b collab suffix tr ts = .ok out)
    (hc : collab.orderedSteps.get? i = some c)
    (him : imp ∈ allImplicitMounts collab) :
    out.pod.spec.containers.get? i = some (stepTransform flags b collab tr i c) ∧
    (stepTransform flags b collab tr i c).volumeMounts =
      mountsWithCreds flags i c.volumeMounts ++
        (allImplicitMounts collab).filter
          (fun m => !(((mountsWithCreds flags i c.volumeMounts).map
              (fun vm => cleanPath vm.mountPath)).contains (cleanPath m.mountPath))) ∧
    (imp ∈ (stepTransform flags b collab tr i c).volumeMounts ∨
      cleanPath imp.mountPath ∈
        (mountsWithCreds flags i c.volumeMounts).map (fun vm => cleanPath vm.mountPath)) ∧
    (flags.disableCredsInit = false →
      credsVolumeFor i ∈ out.pod.spec.volumes ∧
      credsMountFor i ∈ (stepTransform flags b collab tr i c).volumeMounts) := by
  have hmts := stepTransform_mounts flags b collab tr i c
  refine ⟨buildOut_containers_get? h hc, hmts, ?_, ?_⟩
  · by_cases hmem : cleanPath imp.mountPath ∈
        (mountsWithCreds flags i c.volumeMounts).map (fun vm => cleanPath vm.mountPath)
    · exact Or.inr hmem
    · refine Or.inl ?_
      rw [hmts]
      refine List.mem_append_right _ ?_
      rw [List.mem_filter]
      refine ⟨him, ?_⟩
      have hcont : (((mountsWithCreds flags i c.volumeMounts).map
          (fun vm => cleanPath vm.mountPath)).contains (cleanPath imp.mountPath)) = false :=
        Bool.eq_false_iff.mpr (fun hcc => hmem (List.mem_of_elem_eq_true hcc))
      rw [hcont]
      rfl
  · intro hcr
    constructor
    · rw [build_ok_elim h, assembleOut_volumes]
      exact credsVolume_mem_allVolumes flags b collab tr ts i c hc hcr
    · rw [hmts]
      refine List.mem_append_left _ ?_
      unfold mountsWithCreds getCredsInitVolume
      rw [hcr]
      simp

/-- Witness for the amended C7 at the demo scenario: the workspace implicit
mount is added to the demo step and the step receives its credentials
volume. -/
theorem c7_witness :
    demoOut.pod.spec.containers.get? 0 =
      some (stepTransform demoFlags demoB demoCollab demoRun 0 demoStep) ∧
    (stepTransform demoFlags demoB demoCollab demoRun 0 demoStep).volumeMounts =
      mountsWithCreds demoFlags 0 demoStep.volumeMounts ++
        (allImplicitMounts demoCollab).filter
          (fun m => !(((mountsWithCreds demoFlags 0 demoStep.volumeMounts).map
              (fun vm => cleanPath vm.mountPath)).contains (cleanPath m.mountPath))) ∧
    (({ name := "tekton-internal-workspace", mountPath := workspaceDir } : VolumeMount) ∈
        (stepTransform demoFlags demoB demoCollab demoRun 0 demoStep).volumeMounts ∨
      cleanPath workspaceDir ∈
        (mountsWithCreds demoFlags 0 demoStep.volumeMounts).map
          (fun vm => cleanPath vm.mountPath)) ∧
    (demoFlags.disableCredsInit = false →
      credsVolumeFor 0 ∈ demoOut.pod.spec.volumes ∧
      credsMountFor 0 ∈
        (stepTransform demoFlags demoB demoCollab demoRun 0 demoStep).volumeMounts) :=
  c7_implicit_mounts_to_steps demoFlags demoB demoCollab "sfx" demoRun demoSpec demoOut
    0 demoStep { name := "tekton-internal-workspace", mountPath := workspaceDir }
    (by decide) (by decide) (by decide)

/-! ## Claim C8 (corrected) -/

/-- C8 counterexample: Build writes the release annotation into the TaskRun
annotation map, which the pod annotations alias, so the TaskRun argument is
mutated; and two Build calls with identical inputs and identical
collaborator responses but different random name draws produce different
descriptors. -/
theorem c8_counterexample :
    demoOut.taskRunAnnotsAfter ≠ demoRun.annots ∧
    build demoFlags demoB demoCollab "aaaaa" demoRun demoSpec ≠
      build demoFlags demoB demoCollab "bbbbb" demoRun demoSpec := by
  refine ⟨by decide, by decide⟩

/-- C8 as amended: given identical inputs, identical collaborator responses
and an identical random name suffix, Build is deterministic; two calls
differing only in the suffix agree on the entire pod spec and on every
metadata field except the generated name, which embeds the suffix; and
Build stamps the release annotation (and, when applicable, the readiness
annotation) into the TaskRun annotation map, which the pod annotations
alias. -/
theorem c8_deterministic_modulo_name (flags : FeatureFlags) (b : BuilderOpts)
    (collab : Collab) (s1 s2 : String) (tr : TaskRun) (ts : TaskSpec)
    (out1 out2 : BuildOut)
    (h1 : build flags b collab s1 tr ts = .ok out1)
    (h2 : build flags b collab s2 tr ts = .ok out2) :
    out1.pod.spec = out2.pod.spec ∧
    out1.pod.meta.namespaceName = out2.pod.meta.namespaceName ∧
    out1.pod.meta.annots = out2.pod.meta.annots ∧
    out1.pod.meta.labels = out2.pod.meta.labels ∧
    out1.pod.meta.ownerTaskRunName = out2.pod.meta.ownerTaskRunName ∧
    out1.pod.meta.name = restrictLengthWithSuffix (tr.name ++ "-pod") s1 ∧
    out2.pod.meta.name = restrictLengthWithSuffix (tr.name ++ "-pod") s2 ∧
    out1.taskRunAnnotsAfter = out1.pod.meta.annots ∧
    out1.pod.meta.annots =
      (if shouldAddReadyAnnot flags ts.sidecars then
        mapInsert (mapInsert tr.annots releaseAnnotKey collab.version)
          readyAnnotKey readyAnnotValue
      else mapInsert tr.annots releaseAnnotKey collab.version) := by
  rw [build_ok_elim h1, build_ok_elim h2]
  exact ⟨rfl, rfl, rfl, rfl, rfl, rfl, rfl, rfl, rfl⟩

/-- Witness for the amended C8 at the demo scenario with two distinct
suffix draws. -/
theorem c8_witness :
    demoOutA.pod.spec = demoOutB.pod.spec ∧
    demoOutA.pod.meta.namespaceName = demoOutB.pod.meta.namespaceName ∧
    demoOutA.pod.meta.annots = demoOutB.pod.meta.annots ∧
    demoOutA.pod.meta.labels = demoOutB.pod.meta.labels ∧
    demoOutA.pod.meta.ownerTaskRunName = demoOutB.pod.meta.ownerTaskRunName ∧
    demoOutA.pod.meta.name = restrictLengthWithSuffix (demoRun.name ++ "-pod") "aaaaa" ∧
    demoOutB.pod.meta.name = restrictLengthWithSuffix (demoRun.name ++ "-pod") "bbbbb" ∧
    demoOutA.taskRunAnnotsAfter = demoOutA.pod.meta.annots ∧
    demoOutA.pod.meta.annots =
      (if shouldAddReadyAnnot demoFlags demoSpec.sidecars then
        mapInsert (mapInsert demoRun.annots releaseAnnotKey demoCollab.version)
          readyAnnotKey readyAnnotValue
      else mapInsert demoRun.annots releaseAnnotKey demoCollab.version) :=
  c8_deterministic_modulo_name demoFlags demoB demoCollab "aaaaa" "bbbbb" demoRun demoSpec
    demoOutA demoOutB (by decide) (by decide)

end Tekton
